import Mathlib

/-!
Verification development for the war-room incident-coordination engine.

The Python source stores enum-valued fields as their string values
(pydantic `use_enum_values`) and normalizes both sides of every status
comparison through `.value`; since the enum-to-string map is injective we
model statuses directly as inductive types with decidable equality.
Confidences are Python floats compared against 0.5; every comparison in
the source is against exactly representable constants, so we model them
as rationals.  Timestamps (`datetime.utcnow()`) are modelled as a `now : Nat`
parameter threaded to each call.  The external LLM ("oracle") calls are
modelled as explicit function parameters returning `Option` results, with
`none` standing for any transport error, empty payload, or unparseable
output.
-/

namespace WarRoom

/-- models.py `TeamStatus`. -/
inductive TeamStatus
  | standby
  | investigating
  | blocked
  | found_issue
  | resolved
deriving DecidableEq, Repr

/-- models.py `ActionStatus`. -/
inductive ActionStatus
  | pending
  | in_progress
  | completed
  | action_blocked
deriving DecidableEq, Repr

/-- models.py `MessagePriority`. -/
inductive MessagePriority
  | low
  | normal
  | high
  | critical
deriving DecidableEq, Repr

/-- The `.value` string of a `MessagePriority` (the enum is a `str` enum). -/
def MessagePriority.value : MessagePriority → String
  | .low => "low"
  | .normal => "normal"
  | .high => "high"
  | .critical => "critical"

/-- The `.value` string of an `ActionStatus` (the enum is a `str` enum;
the `BLOCKED` member's value is "blocked"). -/
def ActionStatus.value : ActionStatus → String
  | .pending => "pending"
  | .in_progress => "in_progress"
  | .completed => "completed"
  | .action_blocked => "blocked"

/-- Values stored in a `TimelineEvent.metadata` map. -/
inductive MetaVal
  | s (v : String)
  | q (v : Rat)
  | strs (v : List String)
deriving DecidableEq, Repr

/-- models.py `Hypothesis`. -/
structure Hypothesis where
  root_cause : String
  confidence : Rat
  supporting_evidence : List String
  version : Nat
  proposed_by : String
  timestamp : Nat
deriving DecidableEq, Repr

/-- models.py `TimelineEvent`. -/
structure TimelineEvent where
  event_type : String
  description : String
  team : Option String := none
  severity : Option String := none
  timestamp : Nat
  metadata : List (String × MetaVal) := []
deriving DecidableEq, Repr

/-- models.py `TeamState`. -/
structure TeamState where
  name : String
  status : TeamStatus := .standby
  assigned_engineers : List String := []
  active_tasks : List String := []
  findings_count : Nat := 0
  last_update : Nat := 0
  blocked_reason : Option String := none
  needs_help_from : List String := []
deriving DecidableEq, Repr

/-- models.py `Action`. -/
structure Action where
  id : String
  assigned_to : String
  description : String
  priority : MessagePriority := .normal
  status : ActionStatus := .pending
  created_at : Nat := 0
  assigned_by : String := "Strategic Commander"
  completed_at : Option Nat := none
  blocking_issues : List String := []
deriving DecidableEq, Repr

/-- models.py `Message`. -/
structure Message where
  incident_id : String
  thread : String
  sender : String
  sender_type : String
  content : String
  priority : MessagePriority := .normal
  timestamp : Nat := 0
  mentions : List String := []
  attachments : List String := []
  is_critical : Bool := false
deriving DecidableEq, Repr

/-- models.py `Finding`. -/
structure Finding where
  thread : String
  engineer : String
  raw_text : String
  signal_type : String
  entities : List (String × String) := []
  confidence : Rat := 0
  timestamp : Nat := 0
  related_actions : List String := []
  validated : Bool := false
deriving DecidableEq, Repr

/-- A consensus object returned by the Selective Collaboration Protocol
(the strict-JSON shape requested by `_reach_consensus`). -/
structure Consensus where
  consensus_hypothesis : String
  confidence : Rat
  supporting_teams : List String
  key_evidence : List String
  consensus_type : String
  reasoning : String
  participating_teams : List String := []
deriving DecidableEq, Repr

/-- models.py `Incident` (the fields the coordination engine reads or
writes; the `collaboration_*` attributes are set by the commander and
persisted by the repository). -/
structure Incident where
  id : String
  title : String
  description : String
  severity : String
  affected_system : String
  status : String := "declared"
  threads : List String := ["unix", "windows", "network", "database", "application",
    "middleware", "cloud", "security", "storage", "summary"]
  team_states : List (String × TeamState) := []
  hypothesis : Option Hypothesis := none
  timeline : List TimelineEvent := []
  actions : List Action := []
  escalated_to_vendor : Bool := false
  collaboration_active : Bool := false
  collaboration_teams : List String := []
  collaboration_consensus : Option Consensus := none
deriving DecidableEq, Repr

/-- Python dict lookup `d[k]` / `k in d` over the insertion-ordered
`team_states` mapping. -/
def tsLookup : List (String × TeamState) → String → Option TeamState
  | [], _ => none
  | (k, v) :: rest, key => if k = key then some v else tsLookup rest key

/-- Python dict assignment `d[k] = v`: replaces in place when the key
exists, otherwise appends at the end (insertion order). -/
def tsSet : List (String × TeamState) → String → TeamState → List (String × TeamState)
  | [], key, v => [(key, v)]
  | (k, w) :: rest, key, v =>
    if k = key then (key, v) :: rest else (k, w) :: tsSet rest key v

/-- Python `l[-n:]`: the last `n` elements of a list. -/
def lastN (n : Nat) (l : List α) : List α := l.drop (l.length - n)

/-- Python substring test `needle in haystack` over code points. -/
def strContains (haystack needle : String) : Bool :=
  haystack.data.tails.any (fun t => needle.data.isPrefixOf t)

/-- Python `str.lower()` over code points (kernel-reducible list form). -/
def strLower (s : String) : String := String.mk (s.data.map Char.toLower)

/-- Python slicing `s[:n]` over code points (kernel-reducible list form). -/
def strTake (s : String) (n : Nat) : String := String.mk (s.data.take n)

/-- Python `str.title()`: the first letter of each alphabetic run is
uppercased, the rest lowercased. -/
def pyTitle (s : String) : String :=
  (s.data.foldl
    (fun (acc : List Char × Bool) c =>
      if c.isAlpha then
        (acc.1 ++ [if acc.2 then c.toLower else c.toUpper], true)
      else
        (acc.1 ++ [c], false))
    ([], false)).1.asString

/-- Python `set(a) != set(b)` test, as used on the participating-team
lists. -/
def sameSet (a b : List String) : Bool :=
  a.all (fun x => b.contains x) && b.all (fun x => a.contains x)

/-- Python `f-string` percent formatting of a confidence (the exact
decimal rounding of CPython float formatting is abstracted by rounding
the rational to the nearest whole percent). -/
def formatPercent (q : Rat) : String :=
  toString (round (q * 100) : Int) ++ "%"

/-- The 0.5 confidence threshold of the hypothesis gate and of the
default classification, as a kernel-reducible rational. -/
def half : Rat := ⟨1, 2, by decide, Nat.coprime_one_left 2⟩

/-- 0.3 as a kernel-reducible rational. -/
def conf03 : Rat := ⟨3, 10, by decide, by decide⟩

/-- 0.4 as a kernel-reducible rational. -/
def conf04 : Rat := ⟨2, 5, by decide, by decide⟩

/-- 0.6 as a kernel-reducible rational. -/
def conf06 : Rat := ⟨3, 5, by decide, by decide⟩

/-- 0.7 as a kernel-reducible rational. -/
def conf07 : Rat := ⟨7, 10, by decide, by decide⟩

/-- 0.8 as a kernel-reducible rational. -/
def conf08 : Rat := ⟨4, 5, by decide, by decide⟩

/-! ## agents.py — OrchestratorAgent -/

/-- The strict-JSON classification requested by `_classify_signal`; the
oracle returning `none` models any transport error, empty payload, or
JSON parse failure. -/
structure Classification where
  signal_type : String
  confidence : Rat
  entities : List (String × String) := []
  should_trigger_commander : Bool := false
  summary : Option String := none
deriving DecidableEq, Repr

/-- agents.py line 60-65: the default classification used when
`_classify_signal` returns `None`. -/
def defaultClassification : Classification :=
  { signal_type := "info", confidence := half, entities := [],
    should_trigger_commander := false, summary := none }

/-- agents.py lines 80-97: the per-team state update performed when the
posting thread is present in `team_states`. -/
def applySignalToTeam (ts : TeamState) (engineer content signal_type : String)
    (now : Nat) : TeamState :=
  let ts1 := { ts with findings_count := ts.findings_count + 1, last_update := now }
  let ts2 :=
    if engineer ∈ ts1.assigned_engineers then ts1
    else { ts1 with assigned_engineers := ts1.assigned_engineers ++ [engineer] }
  if signal_type = "blocker" then
    { ts2 with status := .blocked, blocked_reason := some (content.take 100) }
  else if signal_type = "root_cause_candidate" then
    { ts2 with status := .found_issue }
  else if ts2.status = .standby then
    { ts2 with status := .investigating }
  else ts2

/-- agents.py `_suggest_help_team`: keyword table scanned in insertion
order; the first team other than the current thread with a keyword
occurring as a substring of the lowercased content wins. -/
def suggestionTable : List (String × List String) :=
  [("database", ["query", "sql", "table", "index", "connection pool", "deadlock"]),
   ("network", ["network", "dns", "tcp", "latency", "timeout", "firewall", "routing"]),
   ("application", ["code", "application", "service", "api", "endpoint"]),
   ("cloud", ["aws", "azure", "gcp", "cloud", "s3", "ec2", "lambda"]),
   ("security", ["security", "auth", "permission", "certificate", "ssl", "tls"]),
   ("unix", ["linux", "unix", "disk", "memory", "cpu", "process"]),
   ("windows", ["windows", "iis", ".net", "active directory"]),
   ("middleware", ["kafka", "rabbitmq", "redis", "cache", "message queue"])]

/-- agents.py `_suggest_help_team`. -/
def suggest_help_team (content current_thread : String) : Option String :=
  let content_lower := content.toLower
  (suggestionTable.find? (fun p =>
    p.1 ≠ current_thread && p.2.any (fun kw => strContains content_lower kw))).map (·.1)

/-- agents.py `_generate_agent_response`. -/
def generate_agent_response (content : String) (cls : Classification)
    (thread : String) : String :=
  if cls.signal_type = "root_cause_candidate" then
    "🎯 Excellent finding! This could be the root cause.\n\nI am alerting the Strategic Commander to analyze this across all teams.\n\nContinue gathering evidence to support this hypothesis."
  else if cls.signal_type = "blocker" then
    match suggest_help_team content thread with
    | some needs_help =>
      "⚠️ Blocker identified.\n\nI am alerting the Strategic Commander for coordination.\n\nSuggested: Check with " ++ needs_help ++ " team."
    | none =>
      "⚠️ Blocker identified.\n\nI am alerting the Strategic Commander for coordination.\n\nDocumenting blocker."
  else if cls.signal_type = "resolution" then
    "✅ Great progress!\n\nDocument the resolution steps and test thoroughly.\n\nI will update the Strategic Commander."
  else if cls.signal_type = "warning" then
    "⚠️ Noted. Continue investigating this path.\n\nKeep the team updated on your findings."
  else if cls.signal_type = "request_help" then
    "🤝 Help request acknowledged.\n\nI am coordinating with the Strategic Commander to assign resources."
  else
    "✓ Update received. Continue investigation.\n\n" ++ (cls.summary.getD "Keep sharing your findings.")

/-- Outcome of one `process_engineer_input` call.  `incident` is the
object handed to `repo.update_incident`; `finding` and `reply` were
stored via `repo.add_finding` / `repo.add_message` *before* the trigger
expression is evaluated.  `result = some t` models the normal return
(`t` = `triggered_commander`, i.e. whether `analyze_and_direct` is then
invoked); `result = none` models the `KeyError` raised by the unguarded
`incident.team_states[thread]` access in the trigger expression. -/
structure PEIOutcome where
  incident : Incident
  finding : Finding
  reply : Message
  result : Option Bool
deriving Repr

/-- agents.py `OrchestratorAgent.process_engineer_input` (lines 48-142),
with the signal classifier modelled as its `Option Classification`
result. -/
def process_engineer_input (inc : Incident) (thread engineer_name content : String)
    (clsOpt : Option Classification) (now : Nat) : PEIOutcome :=
  let cls := clsOpt.getD defaultClassification
  let finding : Finding :=
    { thread := thread, engineer := engineer_name, raw_text := content,
      signal_type := cls.signal_type, confidence := cls.confidence,
      entities := cls.entities, timestamp := now }
  let inc1 :=
    match tsLookup inc.team_states thread with
    | none => inc
    | some ts =>
      let ts' := applySignalToTeam ts engineer_name content cls.signal_type now
      { inc with team_states := tsSet inc.team_states thread ts' }
  let ev : TimelineEvent :=
    { event_type := "finding",
      description := "[" ++ thread.toUpper ++ "] " ++ engineer_name ++ ": " ++ content.take 80 ++ "...",
      team := some thread,
      severity := some (if cls.signal_type = "root_cause_candidate" ∨ cls.signal_type = "blocker"
        then "high" else "normal"),
      timestamp := now }
  let inc2 := { inc1 with timeline := inc1.timeline ++ [ev] }
  let reply : Message :=
    { incident_id := inc.id, thread := thread,
      sender := pyTitle thread ++ " Agent", sender_type := "agent",
      content := generate_agent_response content cls thread,
      priority := if cls.signal_type = "root_cause_candidate" ∨ cls.signal_type = "blocker"
        then .high else .normal,
      timestamp := now }
  let triggered : Option Bool :=
    if cls.should_trigger_commander
        ∨ cls.signal_type = "root_cause_candidate"
        ∨ cls.signal_type = "blocker" then
      some true
    else
      match tsLookup inc2.team_states thread with
      | some ts => some (decide (ts.findings_count % 3 = 0))
      | none => none
  { incident := inc2, finding := finding, reply := reply, result := triggered }

/-- Python list update of the *first* action matching `action_id`
(`next((a for a in incident.actions if a.id == action_id), None)`). -/
def updateFirstAction : List Action → String → ActionStatus → Option Nat → List Action
  | [], _, _, _ => []
  | a :: rest, aid, st, completed_at =>
    if a.id = aid then
      let ca := if st = .completed then completed_at else a.completed_at
      { a with status := st, completed_at := ca } :: rest
    else a :: updateFirstAction rest aid st completed_at

/-- agents.py `update_action_status` (lines 335-375): returns `none` when
no action has the given id, otherwise the updated incident and the
notification message. -/
def update_action_status (inc : Incident) (action_id : String) (status : ActionStatus)
    (notes : Option String) (now : Nat) : Option (Incident × Message) :=
  match inc.actions.find? (fun a => a.id = action_id) with
  | none => none
  | some action =>
    let completed_at := (inc.timeline.getLast?).map (·.timestamp)
    let actions1 := updateFirstAction inc.actions action_id status completed_at
    let ev : TimelineEvent :=
      { event_type := "action_update",
        description := action.assigned_to.toUpper ++ ": Action " ++ status.value
          ++ " - " ++ action.description.take 50,
        team := some action.assigned_to,
        timestamp := now,
        metadata := [("action_id", .s action_id), ("notes", .s (notes.getD ""))] }
    let inc1 := { inc with actions := actions1, timeline := inc.timeline ++ [ev] }
    let msg : Message :=
      { incident_id := inc.id, thread := action.assigned_to,
        sender := "Strategic Commander", sender_type := "commander",
        content := "📋 Action updated: " ++ action.status.value ++ " → " ++ status.value
          ++ "\n" ++ action.description ++ "\n" ++ notes.getD "",
        priority := .normal, timestamp := now }
    some (inc1, msg)

/-! ## strategic_commander.py — StrategicCommander -/

/-- The `updated_hypothesis` candidate of an assessment.  `root_cause`
and `confidence` are optional: Python `hyp_data.get("root_cause")` /
`hyp_data.get("confidence", 0)`; an absent or empty root cause and a
missing confidence (treated as 0) are rejection conditions. -/
structure HypCandidate where
  root_cause : Option String := none
  confidence : Option Rat := none
  supporting_evidence : List String := []
deriving DecidableEq, Repr

/-- One `new_actions` entry of an assessment.  The priority arrives
pre-decoded (`MessagePriority(action_data.get("priority", "normal"))`);
`none` models a missing key, which defaults to `normal`. -/
structure ActionProposal where
  team : Option String := none
  description : Option String := none
  priority : Option MessagePriority := none
  reasoning : Option String := none
deriving DecidableEq, Repr

/-- One `team_coordination` entry of an assessment. -/
structure CoordRequest where
  source_team : Option String := none
  target_team : Option String := none
  request : Option String := none
deriving DecidableEq, Repr

/-- The `escalation_needed` object of an assessment. -/
structure EscalationRec where
  escalate : Bool := false
  reason : Option String := none
  escalate_to : Option String := none
deriving DecidableEq, Repr

/-- The full situational assessment (`_analyze_situation`'s strict-JSON
shape and the shape built by `_get_basic_analysis`). -/
structure Analysis where
  updated_hypothesis : Option HypCandidate := none
  new_actions : List ActionProposal := []
  team_coordination : List CoordRequest := []
  escalation_needed : EscalationRec := {}
  critical_blockers : List String := []
  next_steps_summary : Option String := none
deriving DecidableEq, Repr

/-- Python truthiness of `blocked_reason` (a non-empty string). -/
def reasonTruthy : Option String → Bool
  | none => false
  | some s => s ≠ ""

/-- strategic_commander.py `_get_basic_analysis` (lines 257-284): the
deterministic degraded assessment used whenever the oracle is
unavailable, empty, or unparseable. -/
def get_basic_analysis (inc : Incident) (findings : List Finding) : Analysis :=
  let blockers := (inc.team_states.filter
      (fun p => p.2.status = .blocked && reasonTruthy p.2.blocked_reason)).map
    (fun p => p.1 ++ ": " ++ p.2.blocked_reason.getD "")
  let root_cause_candidates := (findings.filter
      (fun f => f.signal_type = "root_cause_candidate")).map
    (fun f => f.engineer ++ " in " ++ f.thread ++ ": " ++ f.raw_text.take 50 ++ "...")
  { updated_hypothesis := none,
    new_actions := [],
    team_coordination := [],
    escalation_needed := { escalate := false, reason := none, escalate_to := none },
    critical_blockers := blockers.take 3,
    next_steps_summary := some ("AI analysis unavailable. "
      ++ toString blockers.length ++ " blocker(s) identified. "
      ++ toString root_cause_candidates.length ++ " root cause candidate(s) found.") }

/-- The outcome of the `_analyze_situation` oracle call.  `failure`
covers a missing client, an empty response, a JSON parse error, and any
other exception — all of which return the deterministic
`_get_basic_analysis` fallback.  `parsed a` is a successfully parsed
truthy JSON object (each field read through `.get` with a default).
`falsy` is a payload that parses but is falsy in Python ("null", "{}",
"[]", "0", an empty string, or "false"): `_analyze_situation` returns it
as-is and `analyze_and_direct` (lines 100-102) then ends the cycle with
`return None`, before APPLYING and BROADCASTING.  A truthy payload that
is not a JSON object would raise in the applying phase and is outside
this model. -/
inductive OracleAnalysis
  | failure
  | falsy
  | parsed (a : Analysis)
deriving DecidableEq, Repr

/-- strategic_commander.py `_analyze_situation` (lines 125-255): the
deterministic fallback on any oracle failure, otherwise the parsed
payload — `none` meaning the payload parsed but is falsy. -/
def analyzeSituation (inc : Incident) (findings : List Finding)
    (oracleOut : OracleAnalysis) : Option Analysis :=
  match oracleOut with
  | .failure => some (get_basic_analysis inc findings)
  | .falsy => none
  | .parsed a => some a

/-- strategic_commander.py `_update_hypothesis` (lines 286-328). -/
def update_hypothesis (inc : Incident) (analysis : Analysis) (now : Nat) : Incident :=
  match analysis.updated_hypothesis with
  | none => inc
  | some hd =>
    match hd.root_cause with
    | none => inc
    | some rc =>
      if rc = "" then inc
      else if hd.confidence.getD 0 < half then inc
      else
        match inc.hypothesis with
        | none =>
          let h : Hypothesis :=
            { root_cause := rc, confidence := hd.confidence.getD 0,
              supporting_evidence := hd.supporting_evidence, version := 1,
              proposed_by := "Strategic Commander", timestamp := now }
          let ev : TimelineEvent :=
            { event_type := "hypothesis_formed",
              description := "Initial hypothesis formed: " ++ rc,
              severity := some "high", timestamp := now }
          { inc with hypothesis := some h, timeline := inc.timeline ++ [ev] }
        | some old =>
          let h : Hypothesis :=
            { root_cause := rc, confidence := hd.confidence.getD 0,
              supporting_evidence := hd.supporting_evidence,
              version := old.version + 1,
              proposed_by := old.proposed_by, timestamp := now }
          let ev : TimelineEvent :=
            { event_type := "hypothesis_updated",
              description := "Hypothesis evolved (v" ++ toString h.version ++ "): " ++ rc,
              severity := some "high", timestamp := now,
              metadata := [("previous", .s old.root_cause)] }
          { inc with hypothesis := some h, timeline := inc.timeline ++ [ev] }

/-- The dedup key of `_assign_actions`: team lowercased, a colon, and the
first 60 characters of the lowercased description
(`team.lower() + ":" + description.lower()[:60]`). -/
def dedupKey (team description : String) : String :=
  strLower team ++ ":" ++ strTake (strLower description) 60

/-- The non-completed actions of an incident. -/
def activeActions (inc : Incident) : List Action :=
  inc.actions.filter (fun a => a.status ≠ .completed)

/-- Number of simultaneously non-completed actions. -/
def activeCount (inc : Incident) : Nat := (activeActions inc).length

/-- Dedup keys of the non-completed actions. -/
def activeKeys (inc : Incident) : List String :=
  (activeActions inc).map (fun a => dedupKey a.assigned_to a.description)

/-- The message posted to the team thread for a freshly created action. -/
def actionMessage (inc : Incident) (team description : String)
    (priority : MessagePriority) (reasoning : Option String) (now : Nat) : Message :=
  { incident_id := inc.id, thread := team,
    sender := "Strategic Commander", sender_type := "commander",
    content := "🎯 NEW ACTION [" ++ priority.value.toUpper ++ "]:\n" ++ description
      ++ "\n\nReasoning: " ++ reasoning.getD "Investigation needed",
    priority := priority,
    timestamp := now,
    is_critical := priority.value = "critical" ∨ priority.value = "high" }

/-- Lines 381-387 of `_assign_actions`: attach the new action id to the
team state (when the team exists) and flip STANDBY to INVESTIGATING. -/
def attachTask (inc : Incident) (team : String) (action_id : String) : Incident :=
  match tsLookup inc.team_states team with
  | none => inc
  | some ts =>
    let ts1 := { ts with active_tasks := ts.active_tasks ++ [action_id] }
    let ts2 := if ts1.status = TeamStatus.standby
      then { ts1 with status := .investigating } else ts1
    { inc with team_states := tsSet inc.team_states team ts2 }

/-- The `Action` record built for one accepted proposal (lines 371-377). -/
def proposedAction (team description : String) (priority : MessagePriority)
    (action_id : String) (now : Nat) : Action :=
  { id := action_id, assigned_to := team, description := description,
    priority := priority, status := .pending, created_at := now }

/-- The incident mutations of one accepted proposal (lines 370-398):
append the pending action, attach it to the team state, and append the
"action_assigned" timeline event. -/
def acceptState (inc : Incident) (team description : String)
    (priority : MessagePriority) (action_id : String) (now : Nat) : Incident :=
  let action := proposedAction team description priority action_id now
  let inc1 := { inc with actions := inc.actions ++ [action] }
  let inc2 := attachTask inc1 team action.id
  let ev : TimelineEvent :=
    { event_type := "action_assigned",
      description := "Action assigned to " ++ team.toUpper ++ ": " ++ description,
      team := some team,
      severity := some (if priority = .normal then "normal" else "high"),
      timestamp := now }
  { inc2 with timeline := inc2.timeline ++ [ev] }

/-- The loop body of `_assign_actions` (lines 349-412): `existing` is the
running dedup-key set, `count` the running non-completed count, `ids` the
uuid supply and `idx` the number of actions accepted so far in this
batch.  A proposal with a missing/empty team or description is skipped; a
duplicate key is skipped; once the cap of 10 is hit the loop breaks. -/
def assignLoop (inc : Incident) (existing : List String) (count : Nat)
    (ids : Nat → String) (idx : Nat) (now : Nat) :
    List ActionProposal → Incident × List Message
  | [] => (inc, [])
  | ad :: rest =>
    match ad.team, ad.description with
    | some team, some description =>
      if team = "" ∨ description = "" then
        assignLoop inc existing count ids idx now rest
      else
        let key := dedupKey team description
        if key ∈ existing then
          assignLoop inc existing count ids idx now rest
        else if 10 ≤ count then
          (inc, [])
        else
          let priority := ad.priority.getD .normal
          let inc3 := acceptState inc team description priority (ids idx) now
          let msg := actionMessage inc team description priority ad.reasoning now
          let res := assignLoop inc3 (key :: existing) (count + 1) ids (idx + 1) now rest
          (res.1, msg :: res.2)
    | _, _ => assignLoop inc existing count ids idx now rest

/-- strategic_commander.py `_assign_actions` (lines 330-412).  `ids` is
the uuid4 supply, indexed by the number of actions already accepted in
this batch. -/
def assign_actions (inc : Incident) (analysis : Analysis) (ids : Nat → String)
    (now : Nat) : Incident × List Message :=
  assignLoop inc (activeKeys inc) (activeCount inc) ids 0 now analysis.new_actions

/-- The loop body of `_coordinate_teams` (lines 419-464). -/
def coordLoop (inc : Incident) (now : Nat) : List CoordRequest → Incident × List Message
  | [] => (inc, [])
  | coord :: rest =>
    match coord.source_team, coord.target_team, coord.request with
    | some source, some target, some request =>
      if source = "" ∨ target = "" ∨ request = "" then coordLoop inc now rest
      else
        let inc1 :=
          match tsLookup inc.team_states source with
          | none => inc
          | some ts =>
            if target ∈ ts.needs_help_from then inc
            else
              let ts1 := { ts with needs_help_from := ts.needs_help_from ++ [target] }
              { inc with team_states := tsSet inc.team_states source ts1 }
        let msg_source : Message :=
          { incident_id := inc1.id, thread := source,
            sender := "Strategic Commander", sender_type := "commander",
            content := "🤝 Coordination Request: Awaiting input from " ++ target.toUpper
              ++ " team.\n" ++ request,
            priority := .high, timestamp := now, mentions := [target] }
        let msg_target : Message :=
          { incident_id := inc1.id, thread := target,
            sender := "Strategic Commander", sender_type := "commander",
            content := "🤝 " ++ source.toUpper ++ " team needs your help:\n" ++ request,
            priority := .high, timestamp := now, mentions := [source],
            is_critical := true }
        let ev : TimelineEvent :=
          { event_type := "team_coordination",
            description := source.toUpper ++ " requested help from " ++ target.toUpper
              ++ ": " ++ request,
            team := some source, timestamp := now,
            metadata := [("target_team", .s target)] }
        let inc2 := { inc1 with timeline := inc1.timeline ++ [ev] }
        let res := coordLoop inc2 now rest
        (res.1, msg_source :: msg_target :: res.2)
    | _, _, _ => coordLoop inc now rest

/-- strategic_commander.py `_coordinate_teams` (lines 414-464). -/
def coordinate_teams (inc : Incident) (analysis : Analysis) (now : Nat) :
    Incident × List Message :=
  coordLoop inc now analysis.team_coordination

/-- Insertion of the "vendor" thread immediately before the first
"summary" entry, or at the end when no "summary" thread exists
(`threads.insert(threads.index("summary"), "vendor")`). -/
def insertVendor : List String → List String
  | [] => ["vendor"]
  | t :: rest => if t = "summary" then "vendor" :: t :: rest else t :: insertVendor rest

/-- strategic_commander.py `_check_escalation` (lines 466-507).  Only the
"vendor" target mutates anything; any other target — and a repeated
vendor escalation — falls through the `if` and the function returns with
no effect at all. -/
def check_escalation (inc : Incident) (analysis : Analysis) (now : Nat) :
    Incident × List Message :=
  if !analysis.escalation_needed.escalate then (inc, [])
  else
    let reason := analysis.escalation_needed.reason.getD "Unknown"
    let escalate_to := analysis.escalation_needed.escalate_to.getD "management"
    if escalate_to = "vendor" ∧ !inc.escalated_to_vendor then
      let inc1 := { inc with escalated_to_vendor := true }
      let inc2 :=
        if "vendor" ∈ inc1.threads then inc1
        else
          let vts : TeamState := { name := "vendor", status := .investigating }
          { inc1 with threads := insertVendor inc1.threads,
                      team_states := tsSet inc1.team_states "vendor" vts }
      let ev : TimelineEvent :=
        { event_type := "escalation",
          description := "Escalated to VENDOR: " ++ reason,
          severity := some "critical", timestamp := now }
      let inc3 := { inc2 with timeline := inc2.timeline ++ [ev] }
      let msg : Message :=
        { incident_id := inc3.id, thread := "summary",
          sender := "Strategic Commander", sender_type := "commander",
          content := "🚨 ESCALATION TO VENDOR\n\nReason: " ++ reason
            ++ "\n\nVendor team activated.",
          priority := .critical, timestamp := now, is_critical := true }
      (inc3, [msg])
    else (inc, [])

/-- strategic_commander.py `_broadcast_update` (lines 509-532): the
composite summary message posted to the "summary" thread. -/
def broadcast_message (inc : Incident) (analysis : Analysis) (now : Nat) : Message :=
  let summary := analysis.next_steps_summary.getD "Analysis complete"
  let blockers := analysis.critical_blockers
  let base := "📊 STRATEGIC UPDATE\n\n" ++ summary
  let withBlockers :=
    if blockers ≠ [] then
      base ++ "\n\n⚠️ Critical Blockers:\n"
        ++ String.intercalate "\n" (blockers.map (fun b => "  • " ++ b))
    else base
  let content :=
    match inc.hypothesis with
    | some h =>
      withBlockers ++ "\n\n💡 Current Hypothesis (v" ++ toString h.version ++ "):\n"
        ++ h.root_cause ++ "\nConfidence: " ++ formatPercent h.confidence
    | none => withBlockers
  { incident_id := inc.id, thread := "summary",
    sender := "Strategic Commander", sender_type := "commander",
    content := content, priority := .high, timestamp := now }

/-! ## agent_collaboration.py — SelectiveCollaboration -/

/-- A team position from the positions round (`_get_team_position`'s
strict-JSON shape; the code then attaches `position["team"] = team`). -/
structure Position where
  team : String := ""
  hypothesis : String
  confidence : Rat
  evidence : List String := []
  reasoning : String := ""
deriving DecidableEq, Repr

/-- A critique from the critiques round (`_get_critique`'s strict-JSON
shape; the code attaches `critique["from_team"]`). -/
structure Critique where
  from_team : String := ""
  critique_text : String
  agreements : List String := []
  disagreements : List String := []
  questions : List String := []
deriving DecidableEq, Repr

/-- A revision from the responses round (`_get_revision`'s strict-JSON
shape; the code attaches `revision["team"]`). -/
structure Revision where
  team : String := ""
  response_text : String
  revised_hypothesis : String
  revised_confidence : Rat
  changed : Bool := false
  reason_for_change : String := ""
deriving DecidableEq, Repr

/-- The oracle calls issued by the collaboration protocol; `none` models
any LLM failure (transport error or unparseable payload). -/
structure CollabOracles where
  positionOf : String → List Finding → Option Position
  critiqueOf : Position → List Position → Option Critique
  revisionOf : Position → List Critique → Option Revision
  consensusOf : List Position → List Revision → Option Consensus

/-- The per-team message posted after a successful position. -/
def positionMessage (incident_id team : String) (p : Position) (now : Nat) : Message :=
  { incident_id := incident_id, thread := team,
    sender := pyTitle team ++ " Agent", sender_type := "agent",
    content := "🧠 **MY POSITION:**\n\n" ++ p.hypothesis
      ++ "\n\n**Confidence:** " ++ formatPercent p.confidence
      ++ "\n\n**Key Evidence:**\n"
      ++ String.intercalate "\n" (p.evidence.map (fun e => "  • " ++ e)),
    priority := .high, timestamp := now }

/-- agent_collaboration.py `_gather_positions` (lines 195-233): each team
in order; a team with no findings, or whose oracle call fails, is
silently dropped.  The oracle sees the team's last 5 findings (the
`findings[-5:]` slice built into the prompt). -/
def gather_positions (o : CollabOracles) (incident_id : String) (teams : List String)
    (fbt : String → List Finding) (now : Nat) : List Position × List Message :=
  match teams with
  | [] => ([], [])
  | team :: rest =>
    let res := gather_positions o incident_id rest fbt now
    let findings := fbt team
    if findings = [] then res
    else
      match o.positionOf team (lastN 5 findings) with
      | none => res
      | some p0 =>
        let p := { p0 with team := team }
        (p :: res.1, positionMessage incident_id team p now :: res.2)

/-- agent_collaboration.py `_exchange_critiques` (lines 284-317): for
each indexed position, the critique oracle receives that position and
the list of all *other* positions (`[p for j, p in enumerate(positions)
if j != i]`), and a failed call contributes nothing. -/
def critiqueRound (o : CollabOracles) (incident_id : String) (allPositions : List Position)
    (now : Nat) : Nat → List Position → List Critique × List Message
  | _, [] => ([], [])
  | i, p :: rest =>
    let res := critiqueRound o incident_id allPositions now (i + 1) rest
    match o.critiqueOf p (allPositions.eraseIdx i) with
    | none => res
    | some c0 =>
      let c := { c0 with from_team := p.team }
      let msg : Message :=
        { incident_id := incident_id, thread := p.team,
          sender := pyTitle p.team ++ " Agent", sender_type := "agent",
          content := "💬 **CRITIQUE OF OTHER POSITIONS:**\n\n" ++ c.critique_text,
          priority := .high, timestamp := now }
      (c :: res.1, msg :: res.2)

/-- The enumerate loop of `_exchange_critiques`: position `i` is
critiqued against `positions.eraseIdx i`. -/
def exchange_critiques (o : CollabOracles) (incident_id : String)
    (positions : List Position) (now : Nat) : List Critique × List Message :=
  critiqueRound o incident_id positions now 0 positions

/-- agent_collaboration.py `_gather_responses` (lines 368-412): each
positioned team receives the critiques authored by *other* teams; a team
with no applicable critiques is skipped, and a failed oracle call
contributes nothing. -/
def gather_responses (o : CollabOracles) (incident_id : String)
    (positions : List Position) (critiques : List Critique) (now : Nat) :
    List Revision × List Message :=
  match positions with
  | [] => ([], [])
  | p :: rest =>
    let res := gather_responses o incident_id rest critiques now
    let relevant := critiques.filter (fun c => c.from_team ≠ p.team)
    if relevant = [] then res
    else
      match o.revisionOf p relevant with
      | none => res
      | some r0 =>
        let r := { r0 with team := p.team }
        let msg : Message :=
          { incident_id := incident_id, thread := p.team,
            sender := pyTitle p.team ++ " Agent", sender_type := "agent",
            content := "🔄 **MY RESPONSE:**\n\n**Revised Hypothesis:** "
              ++ r.revised_hypothesis ++ "\n\n**Revised Confidence:** "
              ++ formatPercent r.revised_confidence ++ "\n\n**Response:** "
              ++ r.response_text,
            priority := .high, timestamp := now }
        (r :: res.1, msg :: res.2)

/-- agent_collaboration.py `_reach_consensus` (lines 465-522): a single
oracle call over all initial positions and all revisions; the code
attaches the participating-team list to the result. -/
def reach_consensus (o : CollabOracles) (teams : List String)
    (positions : List Position) (revisions : List Revision) : Option Consensus :=
  (o.consensusOf positions revisions).map
    (fun c => { c with participating_teams := teams })

/-- `_announce_collaboration_start` (lines 528-561): one broadcast to the
"summary" thread plus one "collaboration_started" timeline event. -/
def announce_start (inc : Incident) (teams : List String) (now : Nat) :
    Incident × Message :=
  let msg : Message :=
    { incident_id := inc.id, thread := "summary",
      sender := "Strategic Commander", sender_type := "commander",
      content := "🤝 **TEAM COLLABORATION INITIATED**\n\nTeams "
        ++ String.intercalate ", " (teams.map String.toUpper)
        ++ " have been identified as key stakeholders.",
      priority := .critical, timestamp := now, is_critical := true }
  let ev : TimelineEvent :=
    { event_type := "collaboration_started",
      description := "Team collaboration initiated: " ++ String.intercalate ", " teams,
      severity := some "high", timestamp := now,
      metadata := [("teams", .strs teams)] }
  ({ inc with timeline := inc.timeline ++ [ev] }, msg)

/-- `_announce_consensus` (lines 577-615): one broadcast to the "summary"
thread plus one "consensus_reached" timeline event. -/
def announce_consensus (inc : Incident) (c : Consensus) (now : Nat) :
    Incident × Message :=
  let emoji :=
    if c.consensus_type = "unanimous" then "✅"
    else if c.consensus_type = "majority" then "🤝"
    else if c.consensus_type = "commander_decision" then "⚖️"
    else "✅"
  let msg : Message :=
    { incident_id := inc.id, thread := "summary",
      sender := "Strategic Commander", sender_type := "commander",
      content := emoji ++ " **CONSENSUS REACHED**\n\n**Root Cause:**\n"
        ++ c.consensus_hypothesis ++ "\n\n**Confidence:** " ++ formatPercent c.confidence
        ++ "\n\n**Supporting Teams:** "
        ++ String.intercalate ", " (c.supporting_teams.map String.toUpper)
        ++ "\n\n**Reasoning:**\n" ++ c.reasoning,
      priority := .critical, timestamp := now, is_critical := true }
  let ev : TimelineEvent :=
    { event_type := "consensus_reached",
      description := "Team consensus: " ++ c.consensus_hypothesis.take 100 ++ "...",
      severity := some "critical", timestamp := now,
      metadata := [("confidence", .q c.confidence), ("teams", .strs c.supporting_teams)] }
  ({ inc with timeline := inc.timeline ++ [ev] }, msg)

/-- agent_collaboration.py `conduct_collaboration` (lines 143-193):
announce, positions round, abort with no consensus when fewer than 2
positions were gathered, then critiques, revisions, and the single
consensus call; a reached consensus is announced. -/
def conduct_collaboration (inc : Incident) (o : CollabOracles)
    (teams : List String) (fbt : String → List Finding) (now : Nat) :
    Incident × List Message × Option Consensus :=
  let (inc1, startMsg) := announce_start inc teams now
  let (positions, posMsgs) := gather_positions o inc.id teams fbt now
  if positions.length < 2 then
    (inc1, startMsg :: posMsgs, none)
  else
    let (critiques, critMsgs) := exchange_critiques o inc.id positions now
    let (revisions, revMsgs) := gather_responses o inc.id positions critiques now
    match reach_consensus o teams positions revisions with
    | none => (inc1, startMsg :: (posMsgs ++ critMsgs ++ revMsgs), none)
    | some c =>
      let (inc2, consMsg) := announce_consensus inc1 c now
      (inc2, startMsg :: (posMsgs ++ critMsgs ++ revMsgs ++ [consMsg]), some c)

/-! ## strategic_commander.py — analyze_and_direct -/

/-- Grouping of the incident's findings by thread
(`findings_by_team` in `analyze_and_direct`). -/
def findingsByTeam (findings : List Finding) (team : String) : List Finding :=
  findings.filter (fun f => f.thread = team)

/-- Lines 68-72: the collaboration bookkeeping stored on the incident
before the negotiation runs. -/
def collabMark (inc : Incident) (teams : List String) : Incident :=
  if !inc.collaboration_active || !sameSet inc.collaboration_teams teams then
    { inc with collaboration_active := true, collaboration_teams := teams }
  else inc

/-- Lines 82-92: the consensus write-back — the hypothesis is replaced
with no confidence gate, `proposed_by = "Team Consensus"`, and the
version incremented (or set to 1 when none existed). -/
def consensusApply (inc : Incident) (c : Consensus) (now : Nat) : Incident :=
  let v := match inc.hypothesis with | some h => h.version + 1 | none => 1
  let h : Hypothesis :=
    { root_cause := c.consensus_hypothesis, confidence := c.confidence,
      supporting_evidence := c.key_evidence, version := v,
      proposed_by := "Team Consensus", timestamp := now }
  { inc with hypothesis := some h, collaboration_consensus := some c }

/-- The result of one full `analyze_and_direct` cycle: the final
incident, every message posted through the repository during the
commander's own work, and which path produced the return value. -/
structure CycleOutcome where
  incident : Incident
  messages : List Message
  consensusResult : Option Consensus
  analysisResult : Option Analysis
deriving Repr

/-- The APPLYING / BROADCASTING tail of `analyze_and_direct` (lines
104-123), entered only with a truthy assessment: hypothesis → actions →
coordination → escalation, the "strategic_analysis" timeline event, and
the composite broadcast. -/
def analysisTail (inc : Incident) (analysis : Analysis) (ids : Nat → String)
    (now : Nat) (prevMsgs : List Message) : CycleOutcome :=
  let inc1 := update_hypothesis inc analysis now
  let r2 := assign_actions inc1 analysis ids now
  let r3 := coordinate_teams r2.1 analysis now
  let r4 := check_escalation r3.1 analysis now
  let ev : TimelineEvent :=
    { event_type := "strategic_analysis",
      description := "Strategic Commander analyzed situation and updated directives",
      timestamp := now }
  let inc5 := { r4.1 with timeline := r4.1.timeline ++ [ev] }
  let m5 := broadcast_message inc5 analysis now
  { incident := inc5, messages := prevMsgs ++ r2.2 ++ r3.2 ++ r4.2 ++ [m5],
    consensusResult := none, analysisResult := some analysis }

/-- Lines 97-123 of `analyze_and_direct`: obtain the assessment; a falsy
assessment ends the cycle immediately (`if not analysis: return None`)
with no applying and no broadcasting, otherwise the tail runs. -/
def analysisPhase (inc : Incident) (findings : List Finding)
    (oracleOut : OracleAnalysis) (ids : Nat → String) (now : Nat)
    (prevMsgs : List Message) : CycleOutcome :=
  match analyzeSituation inc findings oracleOut with
  | none =>
    { incident := inc, messages := prevMsgs, consensusResult := none,
      analysisResult := none }
  | some analysis => analysisTail inc analysis ids now prevMsgs

/-- strategic_commander.py `analyze_and_direct` (lines 46-123).
`participating` is the (oracle-driven) result of
`should_trigger_collaboration`; when it names teams, the negotiation
runs, and a consensus carrying a non-empty `consensus_hypothesis` is
written back and the cycle *returns early* — the strategic-analysis
timeline event and the composite broadcast are skipped on that path.
On every other path the assessment phase runs, itself aborting with no
broadcast when the parsed assessment is falsy (lines 100-102). -/
def analyze_and_direct (inc : Incident) (findings : List Finding)
    (participating : Option (List String)) (o : CollabOracles)
    (oracleAnalysis : OracleAnalysis) (ids : Nat → String) (now : Nat) :
    CycleOutcome :=
  match participating with
  | none => analysisPhase inc findings oracleAnalysis ids now []
  | some teams =>
    let inc0 := collabMark inc teams
    let (inc2, collabMsgs, cons) :=
      conduct_collaboration inc0 o teams (findingsByTeam findings) now
    match cons with
    | some c =>
      if c.consensus_hypothesis ≠ "" then
        { incident := consensusApply inc2 c now, messages := collabMsgs,
          consensusResult := some c, analysisResult := none }
      else analysisPhase inc2 findings oracleAnalysis ids now collabMsgs
    | none => analysisPhase inc2 findings oracleAnalysis ids now collabMsgs

/-! ## Derived notions used by the specification statements -/

/-- The hypothesis version of an incident, with 0 for "no hypothesis yet"
(so that creating version 1 is also a +1 step). -/
def versionOf (inc : Incident) : Nat :=
  match inc.hypothesis with
  | none => 0
  | some h => h.version

/-- The rejection condition of `_update_hypothesis`: candidate absent,
root cause missing or empty, or confidence (defaulting to 0) below 0.5. -/
def hypRejected (a : Analysis) : Bool :=
  match a.updated_hypothesis with
  | none => true
  | some hd =>
    match hd.root_cause with
    | none => true
    | some rc => rc = "" || decide (hd.confidence.getD 0 < half)

/-- One hypothesis-affecting step of the commander: a full-situation
analysis, or a collaboration consensus write-back (which only happens
when the consensus hypothesis is non-empty). -/
inductive HypUpdate
  | analysisStep (a : Analysis) (now : Nat)
  | consensusStep (c : Consensus) (now : Nat)

/-- How one `HypUpdate` transforms the incident. -/
def applyHypUpdate (inc : Incident) : HypUpdate → Incident
  | .analysisStep a now => update_hypothesis inc a now
  | .consensusStep c now =>
    if c.consensus_hypothesis ≠ "" then consensusApply inc c now else inc

/-- Identifying shape of the composite strategic-update broadcast built
by `_broadcast_update`: posted to "summary" by the commander at HIGH
priority, not critical, with no mentions.  Every other message the cycle
can post differs in at least one of these fields (collaboration
announcements and escalations are CRITICAL, per-team agent posts have
sender_type "agent", action messages at HIGH priority are critical, and
coordination messages carry mentions). -/
def isCompositeSummary (m : Message) : Bool :=
  decide (m.thread = "summary") && decide (m.sender_type = "commander")
    && decide (m.priority = .high) && decide (m.is_critical = false)
    && decide (m.mentions = [])

/-- Recognizes a "strategic_analysis" timeline event. -/
def isSAEvent (e : TimelineEvent) : Bool :=
  decide (e.event_type = "strategic_analysis")

/-- Number of "strategic_analysis" timeline events of an incident. -/
def saCount (inc : Incident) : Nat := inc.timeline.countP isSAEvent

/-- Non-completed count of a plain action list. -/
def countActive (l : List Action) : Nat :=
  (l.filter (fun a => a.status ≠ .completed)).length

/-! ## Concrete inputs used by witnesses and counterexamples -/

/-- A small concrete incident with two team threads and the reserved
"summary" thread. -/
def wIncident : Incident :=
  { id := "i1", title := "API outage", description := "d", severity := "P1",
    affected_system := "api",
    threads := ["database", "network", "summary"],
    team_states := [("database", { name := "database" }),
                    ("network", { name := "network" })] }

/-- A candidate below the 0.5 confidence gate. -/
def wAnalysisReject : Analysis :=
  { updated_hypothesis := some { root_cause := some "cache stampede", confidence := some conf04 } }

/-- A candidate above the 0.5 confidence gate. -/
def wAnalysisAccept : Analysis :=
  { updated_hypothesis := some { root_cause := some "cache stampede", confidence := some conf07 } }

/-- A consensus whose confidence (0.3) is below the ordinary gate. -/
def wConsensusLow : Consensus :=
  { consensus_hypothesis := "connection pool exhaustion",
    confidence := conf03, supporting_teams := ["A", "C"],
    key_evidence := ["pool metrics"], consensus_type := "majority",
    reasoning := "shared evidence" }

/-- Collaboration oracles where team "B" fails the positions round and
the consensus call returns `wConsensusLow`. -/
def wOracles : CollabOracles :=
  { positionOf := fun t _ =>
      if t = "B" then none
      else some { hypothesis := "hyp-" ++ t, confidence := conf07 },
    critiqueOf := fun p others =>
      some { critique_text := p.team ++ " critiques "
        ++ String.intercalate "," (others.map (fun q => q.team)) },
    revisionOf := fun p _ =>
      some { response_text := "resp", revised_hypothesis := "rev-" ++ p.team,
             revised_confidence := conf08 },
    consensusOf := fun _ _ => some wConsensusLow }

/-- One finding per collaboration team A, B, C. -/
def wFindings : List Finding :=
  [{ thread := "A", engineer := "eve", raw_text := "a1", signal_type := "info" },
   { thread := "B", engineer := "eve", raw_text := "b1", signal_type := "info" },
   { thread := "C", engineer := "eve", raw_text := "c1", signal_type := "info" }]

/-- An assessment recommending escalation to management. -/
def wEscalateMgmt : Analysis :=
  { escalation_needed := { escalate := true, reason := some "teams stuck",
                           escalate_to := some "management" } }

/-- An assessment recommending escalation to the vendor. -/
def wEscalateVendor : Analysis :=
  { escalation_needed := { escalate := true, reason := some "teams stuck",
                           escalate_to := some "vendor" } }

/-- A deterministic uuid supply. -/
def wIds : Nat → String := fun n => "uuid-" ++ toString n

/-- A blocker classification with confidence 0.6. -/
def wBlockerCls : Classification :=
  { signal_type := "blocker", confidence := conf06 }

/-- A plain info classification that does not ask to trigger. -/
def wInfoCls : Classification :=
  { signal_type := "info", confidence := half }

/-- A concrete incident with one BLOCKED team carrying a reason. -/
def wIncidentBlocked : Incident :=
  { id := "i2", title := "DB outage", description := "d", severity := "P1",
    affected_system := "db",
    threads := ["database", "network", "summary"],
    team_states := [("database", { name := "database", status := .blocked,
                                   blocked_reason := some "pool exhausted" }),
                    ("network", { name := "network" })] }

/-- One root-cause-candidate finding. -/
def wRccFindings : List Finding :=
  [{ thread := "database", engineer := "bob", raw_text := "found the leak",
     signal_type := "root_cause_candidate" }]

/-- A batch of proposals with a case-variant duplicate. -/
def wActions : Analysis :=
  { new_actions :=
      [{ team := some "database", description := some "Check POOL",
         priority := some .high },
       { team := some "Database", description := some "check pool",
         priority := some .low },
       { team := some "network", description := some "trace route" }] }

/-- The n-th pending filler action. -/
def wAction (n : Nat) : Action :=
  { id := "a" ++ toString n, assigned_to := "database",
    description := "task " ++ toString n }

/-- A concrete incident already carrying 10 non-completed actions. -/
def wIncidentFull : Incident :=
  { wIncident with actions := (List.range 10).map wAction }

/-! ## Theorems -/

theorem update_hypothesis_rejected (inc : Incident) (a : Analysis) (now : Nat)
    (h : hypRejected a = true) : update_hypothesis inc a now = inc := by
  unfold hypRejected at h
  unfold update_hypothesis
  cases ha : a.updated_hypothesis with
  | none => rfl
  | some hd =>
    rw [ha] at h
    dsimp only at h ⊢
    cases hrc : hd.root_cause with
    | none => rfl
    | some rc =>
      rw [hrc] at h
      dsimp only at h ⊢
      by_cases h0 : rc = ""
      · rw [if_pos h0]
      · rw [if_neg h0]
        have hconf : hd.confidence.getD 0 < half := by
          rcases (Bool.or_eq_true _ _).mp h with h1 | h1
          · exact absurd (of_decide_eq_true h1) h0
          · exact of_decide_eq_true h1
        rw [if_pos hconf]

theorem update_hypothesis_accepted (inc : Incident) (a : Analysis) (now : Nat)
    (h : hypRejected a = false) :
    versionOf (update_hypothesis inc a now) = versionOf inc + 1 := by
  unfold hypRejected at h
  unfold update_hypothesis
  cases ha : a.updated_hypothesis with
  | none => rw [ha] at h; dsimp only at h; exact Bool.noConfusion h
  | some hd =>
    rw [ha] at h
    dsimp only at h ⊢
    cases hrc : hd.root_cause with
    | none => rw [hrc] at h; dsimp only at h; exact Bool.noConfusion h
    | some rc =>
      rw [hrc] at h
      dsimp only at h ⊢
      rw [Bool.or_eq_false_iff] at h
      obtain ⟨h1, h2⟩ := h
      rw [if_neg (of_decide_eq_false h1), if_neg (of_decide_eq_false h2)]
      cases hh : inc.hypothesis with
      | none => simp [versionOf, hh]
      | some old => simp [versionOf, hh]

theorem consensusApply_version (inc : Incident) (c : Consensus) (now : Nat) :
    versionOf (consensusApply inc c now) = versionOf inc + 1 := by
  cases hh : inc.hypothesis with
  | none => simp [consensusApply, versionOf, hh]
  | some old => simp [consensusApply, versionOf, hh]

theorem applyHypUpdate_version (inc : Incident) (u : HypUpdate) :
    versionOf (applyHypUpdate inc u) = versionOf inc
      ∨ versionOf (applyHypUpdate inc u) = versionOf inc + 1 := by
  cases u with
  | analysisStep a now =>
    cases hr : hypRejected a with
    | true => left; rw [applyHypUpdate, update_hypothesis_rejected inc a now hr]
    | false => right; exact update_hypothesis_accepted inc a now hr
  | consensusStep c now =>
    by_cases hc : c.consensus_hypothesis = ""
    · left; simp [applyHypUpdate, hc]
    · right; simp [applyHypUpdate, hc, consensusApply_version]

theorem foldl_applyHypUpdate_mono (steps : List HypUpdate) :
    ∀ inc : Incident, versionOf inc ≤ versionOf (steps.foldl applyHypUpdate inc) := by
  induction steps with
  | nil => intro inc; simp
  | cons u rest ih =>
    intro inc
    have h1 : versionOf inc ≤ versionOf (applyHypUpdate inc u) := by
      rcases applyHypUpdate_version inc u with h | h <;> omega
    calc versionOf inc ≤ versionOf (applyHypUpdate inc u) := h1
      _ ≤ versionOf (rest.foldl applyHypUpdate (applyHypUpdate inc u)) := ih _
      _ = versionOf ((u :: rest).foldl applyHypUpdate inc) := by simp

/-- **C1**: a hypothesis proposal from a full-situation analysis whose
candidate is absent, has no (or an empty) root cause, or has confidence
below 0.5 leaves the incident — in particular its hypothesis —
completely unchanged; an accepted proposal sets version to exactly 1
when no hypothesis existed and to the previous version + 1 otherwise;
a consensus write-back likewise adds exactly 1; hence over any sequence
of hypothesis-affecting steps (analysis or consensus) the version is
monotonically non-decreasing and moves by exactly 1 per accepted
update. -/
theorem hypothesis_version_discipline (inc : Incident) (a : Analysis) (c : Consensus)
    (now : Nat) (steps : List HypUpdate) :
    (hypRejected a = true → update_hypothesis inc a now = inc)
    ∧ (hypRejected a = false →
        versionOf (update_hypothesis inc a now) = versionOf inc + 1
        ∧ (inc.hypothesis = none →
            ∃ h, (update_hypothesis inc a now).hypothesis = some h ∧ h.version = 1))
    ∧ (versionOf (consensusApply inc c now) = versionOf inc + 1)
    ∧ (∀ u : HypUpdate,
        versionOf inc ≤ versionOf (applyHypUpdate inc u)
        ∧ (versionOf (applyHypUpdate inc u) = versionOf inc
           ∨ versionOf (applyHypUpdate inc u) = versionOf inc + 1))
    ∧ versionOf inc ≤ versionOf (steps.foldl applyHypUpdate inc) := by
  refine ⟨update_hypothesis_rejected inc a now, ?_, consensusApply_version inc c now,
    fun u => ⟨?_, applyHypUpdate_version inc u⟩, foldl_applyHypUpdate_mono steps inc⟩
  · intro hacc
    refine ⟨update_hypothesis_accepted inc a now hacc, ?_⟩
    intro hnone
    have hv : versionOf (update_hypothesis inc a now) = 1 := by
      rw [update_hypothesis_accepted inc a now hacc, versionOf, hnone]
    cases hres : (update_hypothesis inc a now).hypothesis with
    | none => rw [versionOf, hres] at hv; cases hv
    | some h => exact ⟨h, rfl, by rw [versionOf, hres] at hv; exact hv⟩
  · rcases applyHypUpdate_version inc u with h | h <;> omega

/-- Witness for C1 on concrete inputs: a 0.4-confidence candidate is a
no-op, a 0.7-confidence candidate bumps the version by 1, and a
consensus write-back bumps it by 1. -/
theorem hypothesis_version_discipline_witness :
    update_hypothesis wIncident wAnalysisReject 3 = wIncident
    ∧ versionOf (update_hypothesis wIncident wAnalysisAccept 3) = versionOf wIncident + 1
    ∧ versionOf (consensusApply wIncident wConsensusLow 3) = versionOf wIncident + 1 :=
  ⟨(hypothesis_version_discipline wIncident wAnalysisReject wConsensusLow 3 []).1 (by rfl),
   ((hypothesis_version_discipline wIncident wAnalysisAccept wConsensusLow 3 []).2.1 (by rfl)).1,
   (hypothesis_version_discipline wIncident wAnalysisReject wConsensusLow 3 []).2.2.1⟩

theorem collabMark_hypothesis (inc : Incident) (teams : List String) :
    (collabMark inc teams).hypothesis = inc.hypothesis := by
  unfold collabMark; split <;> rfl

theorem conduct_preserves_hypothesis (inc : Incident) (o : CollabOracles)
    (teams : List String) (fbt : String → List Finding) (now : Nat) :
    (conduct_collaboration inc o teams fbt now).1.hypothesis = inc.hypothesis := by
  unfold conduct_collaboration
  dsimp only
  split
  · rfl
  · split <;> rfl

/-- **C2**: a collaboration consensus with a non-empty
`consensus_hypothesis` replaces the incident hypothesis for *every*
confidence value — there is no 0.5 gate on this path — with
`proposed_by = "Team Consensus"` and the version bumped by 1 (1 when no
hypothesis existed). -/
theorem consensus_bypasses_confidence_gate (inc : Incident) (findings : List Finding)
    (teams : List String) (o : CollabOracles) (oa : OracleAnalysis)
    (ids : Nat → String) (now : Nat) (c : Consensus)
    (hcons : (conduct_collaboration (collabMark inc teams) o teams
        (findingsByTeam findings) now).2.2 = some c)
    (hne : c.consensus_hypothesis ≠ "") :
    (analyze_and_direct inc findings (some teams) o oa ids now).incident.hypothesis
      = some { root_cause := c.consensus_hypothesis, confidence := c.confidence,
               supporting_evidence := c.key_evidence, version := versionOf inc + 1,
               proposed_by := "Team Consensus", timestamp := now }
    ∧ (analyze_and_direct inc findings (some teams) o oa ids now).consensusResult
      = some c := by
  have hpres : (conduct_collaboration (collabMark inc teams) o teams
      (findingsByTeam findings) now).1.hypothesis = inc.hypothesis := by
    rw [conduct_preserves_hypothesis, collabMark_hypothesis]
  rcases hr : conduct_collaboration (collabMark inc teams) o teams
      (findingsByTeam findings) now with ⟨inc2, msgs, cons⟩
  rw [hr] at hcons hpres
  simp only at hcons hpres
  subst hcons
  unfold analyze_and_direct
  dsimp only
  rw [hr]
  dsimp only
  rw [if_pos hne]
  refine ⟨?_, rfl⟩
  unfold consensusApply
  simp only [hpres]
  cases hh : inc.hypothesis with
  | none => simp [versionOf, hh]
  | some old => simp [versionOf, hh]

/-- Witness for C2: the concrete consensus has confidence 0.3 — below
the 0.5 gate — and is still written back verbatim. -/
theorem consensus_bypasses_confidence_gate_witness :
    (analyze_and_direct wIncident wFindings (some ["A", "B", "C"]) wOracles .failure
        wIds 9).incident.hypothesis
      = some { root_cause := wConsensusLow.consensus_hypothesis,
               confidence := wConsensusLow.confidence,
               supporting_evidence := wConsensusLow.key_evidence,
               version := versionOf wIncident + 1,
               proposed_by := "Team Consensus", timestamp := 9 }
    ∧ wConsensusLow.confidence < half :=
  ⟨(consensus_bypasses_confidence_gate wIncident wFindings ["A", "B", "C"] wOracles
      .failure wIds 9 { wConsensusLow with participating_teams := ["A", "B", "C"] }
      (by rfl) (by decide)).1,
   by decide⟩

theorem tsLookup_tsSet_self (l : List (String × TeamState)) (k : String) (v : TeamState) :
    tsLookup (tsSet l k v) k = some v := by
  induction l with
  | nil => simp [tsSet, tsLookup]
  | cons p rest ih =>
    obtain ⟨pk, pv⟩ := p
    by_cases h : pk = k
    · simp [tsSet, tsLookup, h]
    · simp [tsSet, tsLookup, h, ih]

theorem applySignalToTeam_fields (ts : TeamState) (engineer content st : String)
    (now : Nat) :
    (applySignalToTeam ts engineer content st now).findings_count = ts.findings_count + 1
    ∧ (applySignalToTeam ts engineer content st now).last_update = now
    ∧ (engineer ∈ ts.assigned_engineers →
        (applySignalToTeam ts engineer content st now).assigned_engineers
          = ts.assigned_engineers)
    ∧ (engineer ∉ ts.assigned_engineers →
        (applySignalToTeam ts engineer content st now).assigned_engineers
          = ts.assigned_engineers ++ [engineer])
    ∧ (st = "blocker" →
        (applySignalToTeam ts engineer content st now).status = .blocked
        ∧ (applySignalToTeam ts engineer content st now).blocked_reason
            = some (content.take 100))
    ∧ (st ≠ "blocker" → st = "root_cause_candidate" →
        (applySignalToTeam ts engineer content st now).status = .found_issue)
    ∧ (st ≠ "blocker" → st ≠ "root_cause_candidate" → ts.status = .standby →
        (applySignalToTeam ts engineer content st now).status = .investigating)
    ∧ (st ≠ "blocker" → st ≠ "root_cause_candidate" → ts.status ≠ .standby →
        (applySignalToTeam ts engineer content st now).status = ts.status) := by
  unfold applySignalToTeam
  by_cases hb : st = "blocker" <;> by_cases hrc : st = "root_cause_candidate" <;>
    by_cases hm : engineer ∈ ts.assigned_engineers <;>
      by_cases hs : ts.status = TeamStatus.standby <;>
        simp_all

/-- **C5**: an engineer update on a thread present in `team_states`
increments `findings_count` by 1, appends the engineer only when new,
refreshes `last_update`, sets the status to BLOCKED with the truncated
text as `blocked_reason` for a blocker, FOUND_ISSUE for a root-cause
candidate, STANDBY→INVESTIGATING otherwise, leaving the status alone in
the remaining cases; and the Strategic Commander is triggered exactly
when the trigger flag is set, the kind is root_cause_candidate or
blocker, or the post-increment findings count is divisible by 3. -/
theorem engineer_input_team_update (inc : Incident) (thread engineer content : String)
    (cls : Classification) (now : Nat) (ts : TeamState)
    (hts : tsLookup inc.team_states thread = some ts) :
    ∃ ts',
      tsLookup (process_engineer_input inc thread engineer content (some cls)
          now).incident.team_states thread = some ts'
      ∧ ts'.findings_count = ts.findings_count + 1
      ∧ ts'.last_update = now
      ∧ (engineer ∈ ts.assigned_engineers → ts'.assigned_engineers = ts.assigned_engineers)
      ∧ (engineer ∉ ts.assigned_engineers →
          ts'.assigned_engineers = ts.assigned_engineers ++ [engineer])
      ∧ (cls.signal_type = "blocker" →
          ts'.status = .blocked ∧ ts'.blocked_reason = some (content.take 100))
      ∧ (cls.signal_type ≠ "blocker" → cls.signal_type = "root_cause_candidate" →
          ts'.status = .found_issue)
      ∧ (cls.signal_type ≠ "blocker" → cls.signal_type ≠ "root_cause_candidate" →
          ts.status = .standby → ts'.status = .investigating)
      ∧ (cls.signal_type ≠ "blocker" → cls.signal_type ≠ "root_cause_candidate" →
          ts.status ≠ .standby → ts'.status = ts.status)
      ∧ (process_engineer_input inc thread engineer content (some cls) now).result
          = some (cls.should_trigger_commander
              || decide (cls.signal_type = "root_cause_candidate")
              || decide (cls.signal_type = "blocker")
              || decide ((ts.findings_count + 1) % 3 = 0)) := by
  obtain ⟨hc, hl, hm1, hm2, hsb, hsr, hss, hsu⟩ :=
    applySignalToTeam_fields ts engineer content cls.signal_type now
  refine ⟨applySignalToTeam ts engineer content cls.signal_type now,
    ?_, hc, hl, hm1, hm2, hsb, hsr, hss, hsu, ?_⟩
  · unfold process_engineer_input
    rw [hts]
    dsimp only
    exact tsLookup_tsSet_self _ _ _
  · unfold process_engineer_input
    rw [hts]
    dsimp only [Option.getD]
    by_cases h1 : cls.should_trigger_commander
    · rw [if_pos (Or.inl h1)]
      simp [h1]
    · by_cases h2 : cls.signal_type = "root_cause_candidate"
      · rw [if_pos (Or.inr (Or.inl h2))]
        simp [h2]
      · by_cases h3 : cls.signal_type = "blocker"
        · rw [if_pos (Or.inr (Or.inr h3))]
          simp [h3]
        · rw [if_neg (by simp [h1, h2, h3])]
          rw [tsLookup_tsSet_self]
          simp only [Bool.eq_false_iff.mpr h1, decide_eq_false h2, decide_eq_false h3]
          simp [hc]

set_option maxRecDepth 4000 in
/-- Witness for C5: the spec scenario — a blocker posted to "database"
with confidence 0.6 marks the team BLOCKED with the posted text as
reason and triggers the commander. -/
theorem engineer_input_team_update_witness :
    ∃ ts', tsLookup (process_engineer_input wIncident "database" "alice"
        "connection pool exhausted" (some wBlockerCls) 7).incident.team_states
        "database" = some ts'
      ∧ ts'.status = .blocked
      ∧ ts'.blocked_reason = some "connection pool exhausted"
      ∧ ts'.findings_count = 1
      ∧ (process_engineer_input wIncident "database" "alice" "connection pool exhausted"
          (some wBlockerCls) 7).result = some true := by
  obtain ⟨ts', h1, h2, _, _, _, h6, _, _, _, h10⟩ :=
    engineer_input_team_update wIncident "database" "alice" "connection pool exhausted"
      wBlockerCls 7 { name := "database" } (by rfl)
  obtain ⟨hbs, hbr⟩ := h6 (by rfl)
  exact ⟨ts', h1, hbs, by rw [hbr]; decide, by rw [h2], by rw [h10]; rfl⟩

/-- **C10**: a call whose thread is absent from `team_states` (for
example the reserved "summary" thread), whose classification does not
set the trigger flag, and whose kind is neither root_cause_candidate nor
blocker, stores the finding and the agent reply and then hits the
unguarded `incident.team_states[thread]` access: the call ends in the
KeyError outcome (`result = none`) instead of a normal return. -/
theorem trigger_keyerror_on_unknown_thread (inc : Incident)
    (thread engineer content : String) (cls : Classification) (now : Nat)
    (habs : tsLookup inc.team_states thread = none)
    (hflag : cls.should_trigger_commander = false)
    (hrc : cls.signal_type ≠ "root_cause_candidate")
    (hbl : cls.signal_type ≠ "blocker") :
    (process_engineer_input inc thread engineer content (some cls) now).result = none
    ∧ (process_engineer_input inc thread engineer content (some cls) now).finding
        = { thread := thread, engineer := engineer, raw_text := content,
            signal_type := cls.signal_type, confidence := cls.confidence,
            entities := cls.entities, timestamp := now }
    ∧ (process_engineer_input inc thread engineer content (some cls) now).reply.thread
        = thread
    ∧ (process_engineer_input inc thread engineer content (some cls) now).reply.content
        = generate_agent_response content cls thread := by
  unfold process_engineer_input
  rw [habs]
  dsimp only
  rw [if_neg (by simp [hflag, hrc, hbl])]
  rw [habs]
  exact ⟨rfl, rfl, rfl, rfl⟩

/-- Witness for C10: a plain info update posted to the "summary" thread
of the concrete incident ends in the KeyError outcome. -/
theorem trigger_keyerror_on_unknown_thread_witness :
    (process_engineer_input wIncident "summary" "alice" "hello" (some wInfoCls) 7).result
      = none :=
  (trigger_keyerror_on_unknown_thread wIncident "summary" "alice" "hello" wInfoCls 7
    (by rfl) (by rfl) (by decide) (by decide)).1

theorem insertVendor_count (l : List String) (h : "vendor" ∉ l) :
    (insertVendor l).count "vendor" = 1 := by
  induction l with
  | nil => simp [insertVendor]
  | cons t rest ih =>
    have ht : t ≠ "vendor" := fun he => h (by simp [he])
    have hrest : "vendor" ∉ rest := fun he => h (by simp [he])
    by_cases hs : t = "summary"
    · subst hs
      have : ("summary" :: rest).count "vendor" = 0 := List.count_eq_zero.mpr h
      simp [insertVendor, List.count_cons, this]
    · simp [insertVendor, hs, List.count_cons, ih hrest, ht]

theorem insertVendor_before_summary (l : List String) (hv : "vendor" ∉ l)
    (hs : "summary" ∈ l) :
    ∃ l1 l2, l = l1 ++ "summary" :: l2 ∧ "summary" ∉ l1
      ∧ insertVendor l = l1 ++ "vendor" :: "summary" :: l2 := by
  induction l with
  | nil => cases hs
  | cons t rest ih =>
    by_cases h0 : t = "summary"
    · subst h0
      exact ⟨[], rest, rfl, by simp, by simp [insertVendor]⟩
    · have hs' : "summary" ∈ rest := by
        rcases List.mem_cons.mp hs with h | h
        · exact absurd h.symm h0
        · exact h
      have hv' : "vendor" ∉ rest := fun he => hv (by simp [he])
      obtain ⟨l1, l2, he1, he2, he3⟩ := ih hv' hs'
      exact ⟨t :: l1, l2, by simp [he1], by simp [he2, Ne.symm h0, h0], by
        simp [insertVendor, h0, he3]⟩

/-- **C8 (amended)**: an escalation recommendation whose target is not
"vendor" is a complete no-op — nothing is recorded in the timeline and
neither the thread list nor `team_states` is touched (the code only
handles the "vendor" target); the "vendor" target flips
`escalated_to_vendor`, inserts the "vendor" thread at most once,
immediately before "summary", and re-escalation is a no-op. -/
theorem escalation_gate_behavior (inc : Incident) (a : Analysis) (now : Nat) :
    (a.escalation_needed.escalate = false → check_escalation inc a now = (inc, []))
    ∧ (a.escalation_needed.escalate_to.getD "management" ≠ "vendor" →
        check_escalation inc a now = (inc, []))
    ∧ (inc.escalated_to_vendor = true → check_escalation inc a now = (inc, []))
    ∧ (a.escalation_needed.escalate = true →
       a.escalation_needed.escalate_to.getD "management" = "vendor" →
       inc.escalated_to_vendor = false →
       (check_escalation inc a now).1.escalated_to_vendor = true
       ∧ ("vendor" ∈ inc.threads → (check_escalation inc a now).1.threads = inc.threads)
       ∧ ("vendor" ∉ inc.threads →
            (check_escalation inc a now).1.threads = insertVendor inc.threads
            ∧ ((check_escalation inc a now).1.threads.count "vendor") = 1
            ∧ ("summary" ∈ inc.threads →
                ∃ l1 l2, inc.threads = l1 ++ "summary" :: l2 ∧ "summary" ∉ l1
                  ∧ (check_escalation inc a now).1.threads
                      = l1 ++ "vendor" :: "summary" :: l2))) := by
  refine ⟨?_, ?_, ?_, ?_⟩
  · intro h; simp [check_escalation, h]
  · intro h
    by_cases he : a.escalation_needed.escalate
    · simp [check_escalation, he, h]
    · simp [check_escalation, he]
  · intro h
    by_cases he : a.escalation_needed.escalate
    · simp [check_escalation, he, h]
    · simp [check_escalation, he]
  · intro he hto hev
    have hcond : a.escalation_needed.escalate_to.getD "management" = "vendor"
        ∧ !inc.escalated_to_vendor := by simp [hto, hev]
    by_cases hvm : "vendor" ∈ inc.threads
    · refine ⟨?_, fun _ => ?_, fun hnm => absurd hvm hnm⟩ <;>
        simp [check_escalation, he, hto, hev, hvm]
    · refine ⟨?_, fun hm => absurd hm hvm, fun hnm => ⟨?_, ?_, ?_⟩⟩
      · simp [check_escalation, he, hto, hev, hvm]
      · simp [check_escalation, he, hto, hev, hvm]
      · have : (check_escalation inc a now).1.threads = insertVendor inc.threads := by
          simp [check_escalation, he, hto, hev, hvm]
        rw [this]
        exact insertVendor_count inc.threads hvm
      · intro hsum
        obtain ⟨l1, l2, h1, h2, h3⟩ := insertVendor_before_summary inc.threads hvm hsum
        refine ⟨l1, l2, h1, h2, ?_⟩
        have : (check_escalation inc a now).1.threads = insertVendor inc.threads := by
          simp [check_escalation, he, hto, hev, hvm]
        rw [this, h3]

/-- Counterexample for C8 as frozen: an escalation to "management" on a
concrete incident records *nothing* in the timeline — the whole call is
a no-op — contradicting "the escalation is recorded in the incident
timeline". -/
theorem nonvendor_escalation_cx :
    check_escalation wIncident wEscalateMgmt 3 = (wIncident, [])
    ∧ (check_escalation wIncident wEscalateMgmt 3).1.timeline = wIncident.timeline
    ∧ wEscalateMgmt.escalation_needed.escalate = true := by
  refine ⟨?_, ?_, rfl⟩ <;> rfl

/-- Witness for C8 (amended): vendor escalation on the concrete incident
adds "vendor" immediately before "summary", sets the flag, and a second
vendor escalation is a no-op. -/
theorem escalation_gate_behavior_witness :
    (check_escalation wIncident wEscalateVendor 3).1.threads
      = ["database", "network", "vendor", "summary"]
    ∧ (check_escalation wIncident wEscalateVendor 3).1.escalated_to_vendor = true
    ∧ check_escalation (check_escalation wIncident wEscalateVendor 3).1
        wEscalateVendor 4
      = ((check_escalation wIncident wEscalateVendor 3).1, []) := by
  have h := escalation_gate_behavior wIncident wEscalateVendor 3
  have h4 := h.2.2.2 (by rfl) (by rfl) (by rfl)
  have hth := (h4.2.2 (by decide)).1
  refine ⟨?_, h4.1, ?_⟩
  · rw [hth]; rfl
  · exact (escalation_gate_behavior (check_escalation wIncident wEscalateVendor 3).1
      wEscalateVendor 4).2.2.1 h4.1

/-- **C6**: when the analysis oracle is unavailable, empty, or
unparseable (`OracleAnalysis.failure`), the cycle completes with the
deterministic degraded assessment: the hypothesis, actions, escalation
flag, threads and team states are all unchanged, the only message posted
is the composite broadcast, the blockers list holds at most 3 entries,
each drawn from a BLOCKED team state with a truthy reason, and the
summary states the blocker and root-cause-candidate counts. -/
theorem degraded_analysis_fallback (inc : Incident) (findings : List Finding)
    (o : CollabOracles) (ids : Nat → String) (now : Nat) :
    (analyze_and_direct inc findings none o .failure ids now).incident.hypothesis
      = inc.hypothesis
    ∧ (analyze_and_direct inc findings none o .failure ids now).incident.actions
      = inc.actions
    ∧ (analyze_and_direct inc findings none o .failure ids now).incident.escalated_to_vendor
      = inc.escalated_to_vendor
    ∧ (analyze_and_direct inc findings none o .failure ids now).incident.threads
      = inc.threads
    ∧ (analyze_and_direct inc findings none o .failure ids now).incident.team_states
      = inc.team_states
    ∧ (analyze_and_direct inc findings none o .failure ids now).analysisResult
      = some (get_basic_analysis inc findings)
    ∧ (analyze_and_direct inc findings none o .failure ids now).messages
      = [broadcast_message (analyze_and_direct inc findings none o .failure ids now).incident
          (get_basic_analysis inc findings) now]
    ∧ (get_basic_analysis inc findings).critical_blockers.length ≤ 3
    ∧ (∀ b ∈ (get_basic_analysis inc findings).critical_blockers,
        ∃ p, p ∈ inc.team_states ∧ p.2.status = TeamStatus.blocked
          ∧ reasonTruthy p.2.blocked_reason = true
          ∧ b = p.1 ++ ": " ++ p.2.blocked_reason.getD "")
    ∧ (get_basic_analysis inc findings).next_steps_summary
      = some ("AI analysis unavailable. "
          ++ toString ((inc.team_states.filter (fun p =>
              p.2.status = TeamStatus.blocked && reasonTruthy p.2.blocked_reason)).length)
          ++ " blocker(s) identified. "
          ++ toString ((findings.filter (fun f =>
              f.signal_type = "root_cause_candidate")).length)
          ++ " root cause candidate(s) found.") := by
  refine ⟨rfl, rfl, rfl, rfl, rfl, rfl, rfl, ?_, ?_, ?_⟩
  · simp only [get_basic_analysis]
    rw [List.length_take]
    exact min_le_left _ _
  · intro b hb
    simp only [get_basic_analysis] at hb
    have hb' := List.take_subset 3 _ hb
    obtain ⟨p, hp, hfb⟩ := List.mem_map.mp hb'
    have hpf := List.mem_filter.mp hp
    have hpred := hpf.2
    rw [Bool.and_eq_true] at hpred
    exact ⟨p, hpf.1, of_decide_eq_true hpred.1, hpred.2, hfb.symm⟩
  · simp [get_basic_analysis]

/-- Witness for C6 on a concrete incident with one blocked team and one
root-cause-candidate finding: hypothesis unchanged, each blocker entry
comes from the blocked team state, and the summary names both counts. -/
theorem degraded_analysis_fallback_witness :
    (analyze_and_direct wIncidentBlocked wRccFindings none wOracles .failure wIds
        5).incident.hypothesis = wIncidentBlocked.hypothesis
    ∧ (∃ p, p ∈ wIncidentBlocked.team_states ∧ p.2.status = TeamStatus.blocked
        ∧ reasonTruthy p.2.blocked_reason = true
        ∧ "database: pool exhausted" = p.1 ++ ": " ++ p.2.blocked_reason.getD "")
    ∧ (get_basic_analysis wIncidentBlocked wRccFindings).next_steps_summary
      = some "AI analysis unavailable. 1 blocker(s) identified. 1 root cause candidate(s) found." := by
  have h := degraded_analysis_fallback wIncidentBlocked wRccFindings wOracles wIds 5
  refine ⟨h.1, ?_, ?_⟩
  · exact h.2.2.2.2.2.2.2.2.1 "database: pool exhausted" (by decide)
  · rw [h.2.2.2.2.2.2.2.2.2]; rfl

theorem attachTask_actions (inc : Incident) (team aid : String) :
    (attachTask inc team aid).actions = inc.actions := by
  unfold attachTask
  cases tsLookup inc.team_states team <;> rfl

theorem acceptState_actions (inc : Incident) (team description : String)
    (priority : MessagePriority) (aid : String) (now : Nat) :
    (acceptState inc team description priority aid now).actions
      = inc.actions ++ [proposedAction team description priority aid now] := by
  unfold acceptState
  dsimp only
  rw [attachTask_actions]

theorem activeKeys_acceptState (inc : Incident) (team description : String)
    (priority : MessagePriority) (aid : String) (now : Nat) :
    activeKeys (acceptState inc team description priority aid now)
      = activeKeys inc ++ [dedupKey team description] := by
  unfold activeKeys activeActions
  rw [acceptState_actions, List.filter_append]
  simp [proposedAction]

theorem activeCount_acceptState (inc : Incident) (team description : String)
    (priority : MessagePriority) (aid : String) (now : Nat) :
    activeCount (acceptState inc team description priority aid now)
      = activeCount inc + 1 := by
  unfold activeCount activeActions
  rw [acceptState_actions, List.filter_append]
  simp [proposedAction]

theorem assignLoop_nodup (ads : List ActionProposal) :
    ∀ (inc : Incident) (existing : List String) (count : Nat) (ids : Nat → String)
      (idx now : Nat),
      (activeKeys inc).Nodup → (∀ k ∈ activeKeys inc, k ∈ existing) →
      (activeKeys (assignLoop inc existing count ids idx now ads).1).Nodup := by
  induction ads with
  | nil => intro inc existing count ids idx now hnd _; exact hnd
  | cons ad rest ih =>
    intro inc existing count ids idx now hnd hsub
    rw [assignLoop]
    cases hteam : ad.team with
    | none =>
      cases hdesc : ad.description with
      | none => exact ih inc existing count ids idx now hnd hsub
      | some d => exact ih inc existing count ids idx now hnd hsub
    | some team =>
      cases hdesc : ad.description with
      | none => exact ih inc existing count ids idx now hnd hsub
      | some desc =>
        dsimp only
        by_cases hempty : team = "" ∨ desc = ""
        · rw [if_pos hempty]; exact ih inc existing count ids idx now hnd hsub
        · rw [if_neg hempty]
          by_cases hdup : dedupKey team desc ∈ existing
          · rw [if_pos hdup]; exact ih inc existing count ids idx now hnd hsub
          · rw [if_neg hdup]
            by_cases hcap : 10 ≤ count
            · rw [if_pos hcap]; exact hnd
            · rw [if_neg hcap]
              dsimp only
              refine ih _ _ _ _ _ _ ?_ ?_
              · rw [activeKeys_acceptState, List.nodup_append]
                refine ⟨hnd, List.nodup_singleton _, ?_⟩
                intro k hk hk'
                rw [List.mem_singleton] at hk'
                subst hk'
                exact hdup (hsub _ hk)
              · intro k hk
                rw [activeKeys_acceptState] at hk
                rcases List.mem_append.mp hk with h | h
                · exact List.mem_cons_of_mem _ (hsub _ h)
                · rw [List.mem_singleton] at h
                  subst h
                  exact List.mem_cons_self _ _

theorem assignLoop_full (ads : List ActionProposal) :
    ∀ (inc : Incident) (existing : List String) (count : Nat) (ids : Nat → String)
      (idx now : Nat), 10 ≤ count →
      assignLoop inc existing count ids idx now ads = (inc, []) := by
  induction ads with
  | nil => intro inc existing count ids idx now _; rfl
  | cons ad rest ih =>
    intro inc existing count ids idx now h
    rw [assignLoop]
    cases hteam : ad.team with
    | none =>
      cases hdesc : ad.description with
      | none => exact ih inc existing count ids idx now h
      | some d => exact ih inc existing count ids idx now h
    | some team =>
      cases hdesc : ad.description with
      | none => exact ih inc existing count ids idx now h
      | some desc =>
        dsimp only
        by_cases hempty : team = "" ∨ desc = ""
        · rw [if_pos hempty]; exact ih inc existing count ids idx now h
        · rw [if_neg hempty]
          by_cases hdup : dedupKey team desc ∈ existing
          · rw [if_pos hdup]; exact ih inc existing count ids idx now h
          · rw [if_neg hdup, if_pos h]

theorem assignLoop_cap (ads : List ActionProposal) :
    ∀ (inc : Incident) (existing : List String) (count : Nat) (ids : Nat → String)
      (idx now : Nat), count = activeCount inc → count ≤ 10 →
      activeCount (assignLoop inc existing count ids idx now ads).1 ≤ 10 := by
  induction ads with
  | nil => intro inc existing count ids idx now hc h; exact hc ▸ h
  | cons ad rest ih =>
    intro inc existing count ids idx now hc h
    rw [assignLoop]
    cases hteam : ad.team with
    | none =>
      cases hdesc : ad.description with
      | none => exact ih inc existing count ids idx now hc h
      | some d => exact ih inc existing count ids idx now hc h
    | some team =>
      cases hdesc : ad.description with
      | none => exact ih inc existing count ids idx now hc h
      | some desc =>
        dsimp only
        by_cases hempty : team = "" ∨ desc = ""
        · rw [if_pos hempty]; exact ih inc existing count ids idx now hc h
        · rw [if_neg hempty]
          by_cases hdup : dedupKey team desc ∈ existing
          · rw [if_pos hdup]; exact ih inc existing count ids idx now hc h
          · rw [if_neg hdup]
            by_cases hcap : 10 ≤ count
            · rw [if_pos hcap]; exact hc ▸ h
            · rw [if_neg hcap]
              dsimp only
              refine ih _ _ _ _ _ _ ?_ ?_
              · rw [activeCount_acceptState, hc]
              · omega

/-- **C3**: after any batch, the dedup keys (team lowercased + ":" +
first 60 chars of the lowercased description) of the non-completed
actions stay pairwise distinct, and a proposal whose key matches the
running key set is skipped with no action created, no team-state
mutation and no message posted (the loop result is identical to
processing the remaining proposals alone). -/
theorem action_dedup_invariant (inc : Incident) (a : Analysis) (ids : Nat → String)
    (now : Nat) (hinv : (activeKeys inc).Nodup) :
    (activeKeys (assign_actions inc a ids now).1).Nodup
    ∧ (∀ (existing : List String) (count idx : Nat) (team description : String)
        (priority : Option MessagePriority) (reasoning : Option String)
        (rest : List ActionProposal),
        dedupKey team description ∈ existing →
        assignLoop inc existing count ids idx now
            ({ team := some team, description := some description,
               priority := priority, reasoning := reasoning } :: rest)
          = assignLoop inc existing count ids idx now rest) := by
  constructor
  · exact assignLoop_nodup a.new_actions inc (activeKeys inc) (activeCount inc) ids 0 now
      hinv (fun _ hk => hk)
  · intro existing count idx team description priority reasoning rest hdup
    rw [assignLoop]
    dsimp only
    by_cases hempty : team = "" ∨ description = ""
    · rw [if_pos hempty]
    · rw [if_neg hempty, if_pos hdup]

set_option maxRecDepth 4000 in
/-- Witness for C3: processing a batch with a case-variant duplicate on
the concrete incident keeps the active keys distinct, and a proposal
whose key is already in the running set is dropped outright. -/
theorem action_dedup_invariant_witness :
    (activeKeys (assign_actions wIncident wActions wIds 5).1).Nodup
    ∧ assignLoop wIncident ["database:check pool"] 0 wIds 0 5
        [{ team := some "Database", description := some "Check POOL",
           priority := none, reasoning := none }]
      = assignLoop wIncident ["database:check pool"] 0 wIds 0 5 [] := by
  have h := action_dedup_invariant wIncident wActions wIds 5 (by decide)
  exact ⟨h.1, h.2 ["database:check pool"] 0 0 "Database" "Check POOL" none none []
    (by decide)⟩

theorem countActive_complete_first (l : List Action) (aid : String) (act : Action)
    (hfind : l.find? (fun x => x.id = aid) = some act)
    (hact : act.status ≠ ActionStatus.completed) (ca : Option Nat) :
    countActive (updateFirstAction l aid .completed ca) + 1 = countActive l := by
  induction l with
  | nil => simp [List.find?] at hfind
  | cons a rest ih =>
    by_cases h : a.id = aid
    · have ha : a = act := by
        rw [List.find?_cons_of_pos _ (by simp [h])] at hfind
        exact Option.some.injEq _ _ ▸ hfind
      rw [updateFirstAction, if_pos h]
      subst ha
      simp [countActive, List.filter_cons, hact]
    · rw [List.find?_cons_of_neg _ (by simp [h])] at hfind
      rw [updateFirstAction, if_neg h]
      have hih := ih hfind
      simp only [countActive] at hih ⊢
      simp only [ne_eq, decide_not] at hih ⊢
      by_cases hs : a.status = ActionStatus.completed <;>
        simp [List.filter_cons, hs] <;> omega

/-- **C4**: the non-completed action count never exceeds 10 across a
batch; a batch arriving when the count is already at (or beyond) 10
changes nothing and posts nothing; completing an action frees a slot
(the count drops by exactly 1); and a valid fresh proposal arriving
under the cap is accepted and appended. -/
theorem action_cap_invariant (inc : Incident) (a : Analysis) (ids : Nat → String)
    (now : Nat) :
    (activeCount inc ≤ 10 → activeCount (assign_actions inc a ids now).1 ≤ 10)
    ∧ (10 ≤ activeCount inc → assign_actions inc a ids now = (inc, []))
    ∧ (∀ (aid : String) (notes : Option String) (act : Action),
        inc.actions.find? (fun x => x.id = aid) = some act →
        act.status ≠ ActionStatus.completed →
        ∃ inc' msg, update_action_status inc aid .completed notes now = some (inc', msg)
          ∧ activeCount inc' + 1 = activeCount inc)
    ∧ (∀ (team description : String) (priority : Option MessagePriority)
        (reasoning : Option String),
        activeCount inc < 10 → ¬(team = "" ∨ description = "") →
        dedupKey team description ∉ activeKeys inc →
        (assign_actions inc
            { new_actions := [⟨some team, some description, priority, reasoning⟩] }
            ids now).1.actions
          = inc.actions ++ [proposedAction team description (priority.getD .normal)
              (ids 0) now]) := by
  refine ⟨?_, ?_, ?_, ?_⟩
  · intro h
    exact assignLoop_cap a.new_actions inc (activeKeys inc) (activeCount inc) ids 0 now
      rfl h
  · intro h
    exact assignLoop_full a.new_actions inc (activeKeys inc) (activeCount inc) ids 0 now h
  · intro aid notes act hfind hact
    unfold update_action_status
    rw [hfind]
    dsimp only
    exact ⟨_, _, rfl, countActive_complete_first inc.actions aid act hfind hact _⟩
  · intro team description priority reasoning hcap hne hfresh
    unfold assign_actions
    rw [assignLoop]
    dsimp only
    rw [if_neg hne, if_neg hfresh, if_neg (by omega)]
    dsimp only
    rw [assignLoop]
    dsimp only
    exact acceptState_actions inc team description (priority.getD .normal) (ids 0) now

set_option maxRecDepth 8000 in
/-- Witness for C4 on concrete incidents: a batch against 10 active
actions is a complete no-op, completing action "a3" drops the active
count from 10 to 9, and a fresh valid proposal against an incident under
the cap is appended. -/
theorem action_cap_invariant_witness :
    assign_actions wIncidentFull wActions wIds 5 = (wIncidentFull, [])
    ∧ (∃ inc' msg, update_action_status wIncidentFull "a3" .completed none 6
        = some (inc', msg) ∧ activeCount inc' + 1 = activeCount wIncidentFull)
    ∧ (assign_actions wIncident
          { new_actions := [⟨some "network", some "trace route", none, none⟩] }
          wIds 5).1.actions
        = wIncident.actions ++ [proposedAction "network" "trace route"
            MessagePriority.normal (wIds 0) 5] := by
  refine ⟨(action_cap_invariant wIncidentFull wActions wIds 5).2.1 (by decide),
    (action_cap_invariant wIncidentFull wActions wIds 6).2.2.1 "a3" none (wAction 3)
      (by decide) (by decide),
    (action_cap_invariant wIncident wActions wIds 5).2.2.2 "network" "trace route"
      none none (by decide) (by decide) (by decide)⟩

theorem gather_positions_teams (o : CollabOracles) (iid : String)
    (fbt : String → List Finding) (now : Nat) :
    ∀ teams : List String,
      ((gather_positions o iid teams fbt now).1.map (fun p => p.team))
        = teams.filter (fun t => !decide (fbt t = [])
            && (o.positionOf t (lastN 5 (fbt t))).isSome) := by
  intro teams
  induction teams with
  | nil => rfl
  | cons t rest ih =>
    rw [gather_positions]
    dsimp only
    by_cases hf : fbt t = []
    · rw [if_pos hf, List.filter_cons]
      simp [hf, ih]
    · rw [if_neg hf]
      cases hp : o.positionOf t (lastN 5 (fbt t)) with
      | none => rw [List.filter_cons]; simp [hf, hp, ih]
      | some p0 => rw [List.filter_cons]; simp [hf, hp, ih]

theorem conduct_abort (inc : Incident) (o : CollabOracles) (teams : List String)
    (fbt : String → List Finding) (now : Nat)
    (h : (gather_positions o inc.id teams fbt now).1.length < 2) :
    (conduct_collaboration inc o teams fbt now).2.2 = none := by
  unfold conduct_collaboration
  dsimp only
  rw [if_pos h]

theorem critiqueRound_mem (o : CollabOracles) (iid : String) (allp : List Position)
    (now : Nat) :
    ∀ (todo : List Position) (i : Nat), todo = allp.drop i →
      ∀ c ∈ (critiqueRound o iid allp now i todo).1,
        ∃ j p, allp.get? j = some p
          ∧ p.team = c.from_team
          ∧ ∃ c0, o.critiqueOf p (allp.eraseIdx j) = some c0
              ∧ c = { c0 with from_team := p.team } := by
  intro todo
  induction todo with
  | nil => intro i _ c hc; simp [critiqueRound] at hc
  | cons p rest ih =>
    intro i hdrop c hc
    have hget : allp.get? i = some p := by
      have h0 := List.get?_drop allp i 0
      rw [Nat.add_zero] at h0
      rw [← h0, ← hdrop]
      rfl
    have hrest : rest = allp.drop (i + 1) := by
      have : allp.drop (i + 1) = (allp.drop i).drop 1 := by
        rw [List.drop_drop, Nat.add_comm]
      rw [this, ← hdrop]
      rfl
    rw [critiqueRound] at hc
    cases hcrit : o.critiqueOf p (allp.eraseIdx i) with
    | none =>
      rw [hcrit] at hc
      exact ih (i + 1) hrest c hc
    | some c0 =>
      rw [hcrit] at hc
      dsimp only at hc
      rcases List.mem_cons.mp hc with h | h
      · exact ⟨i, p, hget, by rw [h], c0, hcrit, h⟩
      · exact ih (i + 1) hrest c h

theorem critiqueRound_sublist (o : CollabOracles) (iid : String) (allp : List Position)
    (now : Nat) :
    ∀ (todo : List Position) (i : Nat),
      ((critiqueRound o iid allp now i todo).1.map (fun c => c.from_team)).Sublist
        (todo.map (fun p => p.team)) := by
  intro todo
  induction todo with
  | nil => intro i; simp [critiqueRound]
  | cons p rest ih =>
    intro i
    rw [critiqueRound]
    cases hcrit : o.critiqueOf p (allp.eraseIdx i) with
    | none => exact (ih (i + 1)).cons _
    | some c0 =>
      dsimp only
      rw [List.map_cons, List.map_cons]
      exact (ih (i + 1)).cons₂ _

theorem nodup_get_not_mem_eraseIdx {α β : Type} (f : α → β) :
    ∀ (l : List α) (i : Nat) (a : α), (l.map f).Nodup → l.get? i = some a →
      f a ∉ (l.eraseIdx i).map f := by
  intro l
  induction l with
  | nil => intro i a _ h; simp at h
  | cons b rest ih =>
    intro i a hnd hget
    rw [List.map_cons, List.nodup_cons] at hnd
    cases i with
    | zero =>
      have hb : b = a := by simpa using hget
      subst hb
      simpa [List.eraseIdx] using hnd.1
    | succ i =>
      have hget' : rest.get? i = some a := by simpa using hget
      simp only [List.eraseIdx, List.map_cons]
      intro hmem
      rcases List.mem_cons.mp hmem with h | h
      · have ha : a ∈ rest := List.get?_mem hget'
        exact hnd.1 (h ▸ List.mem_map_of_mem f ha)
      · exact ih i a hnd.2 hget' h

/-- **C9**: a participating team with no findings or a failed position
oracle call is silently dropped — the positions round returns exactly
the teams with findings and a successful call, in order; the negotiation
returns no consensus when fewer than 2 positions were gathered; the
critiques round yields at most one critique per positioned team (its
author list is a sublist of the positioned teams), each critique is
computed from that team's own position against the other positions only,
and (teams being distinct) a team's critique input never contains its
own position. -/
theorem collaboration_rounds_structure (inc : Incident) (o : CollabOracles)
    (teams : List String) (fbt : String → List Finding) (now : Nat)
    (hnd : teams.Nodup) :
    ((gather_positions o inc.id teams fbt now).1.map (fun p => p.team))
      = teams.filter (fun t => !decide (fbt t = [])
          && (o.positionOf t (lastN 5 (fbt t))).isSome)
    ∧ ((gather_positions o inc.id teams fbt now).1.length < 2 →
        (conduct_collaboration inc o teams fbt now).2.2 = none)
    ∧ ((exchange_critiques o inc.id (gather_positions o inc.id teams fbt now).1
          now).1.map (fun c => c.from_team)).Sublist
        ((gather_positions o inc.id teams fbt now).1.map (fun p => p.team))
    ∧ (∀ c ∈ (exchange_critiques o inc.id
          (gather_positions o inc.id teams fbt now).1 now).1,
        ∃ j p, (gather_positions o inc.id teams fbt now).1.get? j = some p
          ∧ p.team = c.from_team
          ∧ (∃ c0, o.critiqueOf p
                ((gather_positions o inc.id teams fbt now).1.eraseIdx j) = some c0
              ∧ c = { c0 with from_team := p.team })
          ∧ p.team ∉ (((gather_positions o inc.id teams fbt now).1.eraseIdx j).map
              (fun q => q.team))) := by
  have hmap := gather_positions_teams o inc.id fbt now teams
  have hpnd : ((gather_positions o inc.id teams fbt now).1.map
      (fun p => p.team)).Nodup := by
    rw [hmap]; exact hnd.filter _
  refine ⟨hmap, conduct_abort inc o teams fbt now, ?_, ?_⟩
  · exact critiqueRound_sublist o inc.id _ now _ 0
  · intro c hc
    obtain ⟨j, p, hget, hteam, hc0⟩ :=
      critiqueRound_mem o inc.id (gather_positions o inc.id teams fbt now).1 now
        (gather_positions o inc.id teams fbt now).1 0 (by simp) c hc
    exact ⟨j, p, hget, hteam, hc0,
      nodup_get_not_mem_eraseIdx (fun q => q.team) _ j p hpnd hget⟩

/-- Witness for C9: with participants A, B, C where B yields no position,
the positions round returns exactly A and C, and no critique is authored
by B. -/
theorem collaboration_rounds_structure_witness :
    ((gather_positions wOracles wIncident.id ["A", "B", "C"]
        (findingsByTeam wFindings) 0).1.map (fun p => p.team)) = ["A", "C"]
    ∧ ∀ c ∈ (exchange_critiques wOracles wIncident.id
        (gather_positions wOracles wIncident.id ["A", "B", "C"]
          (findingsByTeam wFindings) 0).1 0).1,
        c.from_team ≠ "B" := by
  have h := collaboration_rounds_structure wIncident wOracles ["A", "B", "C"]
    (findingsByTeam wFindings) 0 (by decide)
  have h1 : ((gather_positions wOracles wIncident.id ["A", "B", "C"]
      (findingsByTeam wFindings) 0).1.map (fun p => p.team)) = ["A", "C"] := by
    rw [h.1]; rfl
  refine ⟨h1, ?_⟩
  intro c hc
  obtain ⟨j, p, hget, hteam, _, _⟩ := h.2.2.2 c hc
  intro hb
  have hp := List.get?_mem hget
  have hmem := List.mem_map_of_mem (fun q => q.team) hp
  rw [h1] at hmem
  have hmem' : c.from_team ∈ ["A", "C"] := by rw [← hteam]; simpa using hmem
  rw [hb] at hmem'
  exact absurd hmem' (by decide)

theorem saCount_update_hypothesis (inc : Incident) (a : Analysis) (now : Nat) :
    saCount (update_hypothesis inc a now) = saCount inc := by
  unfold update_hypothesis
  split
  · rfl
  · split
    · rfl
    · split
      · rfl
      · split
        · rfl
        · split <;> simp [saCount, isSAEvent, List.countP_append, List.countP_cons]

theorem attachTask_timeline (inc : Incident) (team aid : String) :
    (attachTask inc team aid).timeline = inc.timeline := by
  unfold attachTask
  cases tsLookup inc.team_states team <;> rfl

theorem saCount_acceptState (inc : Incident) (team description : String)
    (priority : MessagePriority) (aid : String) (now : Nat) :
    saCount (acceptState inc team description priority aid now) = saCount inc := by
  unfold acceptState saCount
  dsimp only
  rw [attachTask_timeline]
  simp [isSAEvent, List.countP_append, List.countP_cons]

theorem saCount_assignLoop (ads : List ActionProposal) :
    ∀ (inc : Incident) (existing : List String) (count : Nat) (ids : Nat → String)
      (idx now : Nat),
      saCount (assignLoop inc existing count ids idx now ads).1 = saCount inc := by
  induction ads with
  | nil => intro inc existing count ids idx now; rfl
  | cons ad rest ih =>
    intro inc existing count ids idx now
    rw [assignLoop]
    cases hteam : ad.team with
    | none => exact ih inc existing count ids idx now
    | some team =>
      cases hdesc : ad.description with
      | none => exact ih inc existing count ids idx now
      | some desc =>
        dsimp only
        by_cases hempty : team = "" ∨ desc = ""
        · rw [if_pos hempty]; exact ih inc existing count ids idx now
        · rw [if_neg hempty]
          by_cases hdup : dedupKey team desc ∈ existing
          · rw [if_pos hdup]; exact ih inc existing count ids idx now
          · rw [if_neg hdup]
            by_cases hcap : 10 ≤ count
            · rw [if_pos hcap]
            · rw [if_neg hcap]
              dsimp only
              rw [ih, saCount_acceptState]

theorem saCount_coordLoop (reqs : List CoordRequest) :
    ∀ (inc : Incident) (now : Nat),
      saCount (coordLoop inc now reqs).1 = saCount inc := by
  induction reqs with
  | nil => intro inc now; rfl
  | cons coord rest ih =>
    intro inc now
    rw [coordLoop]
    cases hs : coord.source_team with
    | none => exact ih inc now
    | some source =>
      cases ht : coord.target_team with
      | none => exact ih inc now
      | some target =>
        cases hr : coord.request with
        | none => exact ih inc now
        | some request =>
          dsimp only
          by_cases hempty : source = "" ∨ target = "" ∨ request = ""
          · rw [if_pos hempty]; exact ih inc now
          · rw [if_neg hempty]
            dsimp only
            rw [ih]
            cases htl : tsLookup inc.team_states source with
            | none => simp [saCount, isSAEvent, List.countP_append, List.countP_cons]
            | some ts =>
              by_cases hj : target ∈ ts.needs_help_from <;>
                simp [hj, saCount, isSAEvent, List.countP_append, List.countP_cons]

theorem saCount_check_escalation (inc : Incident) (a : Analysis) (now : Nat) :
    saCount (check_escalation inc a now).1 = saCount inc := by
  unfold check_escalation
  split
  · rfl
  · dsimp only
    split
    · split <;> simp [saCount, isSAEvent, List.countP_append, List.countP_cons]
    · rfl

theorem collabMark_timeline (inc : Incident) (teams : List String) :
    (collabMark inc teams).timeline = inc.timeline := by
  unfold collabMark; split <;> rfl

theorem saCount_conduct (inc : Incident) (o : CollabOracles) (teams : List String)
    (fbt : String → List Finding) (now : Nat) :
    saCount (conduct_collaboration inc o teams fbt now).1 = saCount inc := by
  unfold conduct_collaboration announce_start announce_consensus
  dsimp only
  split
  · simp [saCount, isSAEvent, List.countP_append, List.countP_cons]
  · split <;> simp [saCount, isSAEvent, List.countP_append, List.countP_cons]

theorem isComposite_broadcast (inc : Incident) (a : Analysis) (now : Nat) :
    isCompositeSummary (broadcast_message inc a now) = true := by
  simp [isCompositeSummary, broadcast_message]

theorem isComposite_actionMessage (inc : Incident) (team description : String)
    (priority : MessagePriority) (reasoning : Option String) (now : Nat) :
    isCompositeSummary (actionMessage inc team description priority reasoning now)
      = false := by
  cases priority <;> simp [isCompositeSummary, actionMessage, MessagePriority.value]

theorem countP_isComposite_assignLoop (ads : List ActionProposal) :
    ∀ (inc : Incident) (existing : List String) (count : Nat) (ids : Nat → String)
      (idx now : Nat),
      (assignLoop inc existing count ids idx now ads).2.countP isCompositeSummary
        = 0 := by
  induction ads with
  | nil => intro inc existing count ids idx now; rfl
  | cons ad rest ih =>
    intro inc existing count ids idx now
    rw [assignLoop]
    cases hteam : ad.team with
    | none => exact ih inc existing count ids idx now
    | some team =>
      cases hdesc : ad.description with
      | none => exact ih inc existing count ids idx now
      | some desc =>
        dsimp only
        by_cases hempty : team = "" ∨ desc = ""
        · rw [if_pos hempty]; exact ih inc existing count ids idx now
        · rw [if_neg hempty]
          by_cases hdup : dedupKey team desc ∈ existing
          · rw [if_pos hdup]; exact ih inc existing count ids idx now
          · rw [if_neg hdup]
            by_cases hcap : 10 ≤ count
            · rw [if_pos hcap]; rfl
            · rw [if_neg hcap]
              dsimp only
              rw [List.countP_cons, ih]
              simp [isComposite_actionMessage]

theorem countP_isComposite_coordLoop (reqs : List CoordRequest) :
    ∀ (inc : Incident) (now : Nat),
      (coordLoop inc now reqs).2.countP isCompositeSummary = 0 := by
  induction reqs with
  | nil => intro inc now; rfl
  | cons coord rest ih =>
    intro inc now
    rw [coordLoop]
    cases hs : coord.source_team with
    | none => exact ih inc now
    | some source =>
      cases ht : coord.target_team with
      | none => exact ih inc now
      | some target =>
        cases hr : coord.request with
        | none => exact ih inc now
        | some request =>
          dsimp only
          by_cases hempty : source = "" ∨ target = "" ∨ request = ""
          · rw [if_pos hempty]; exact ih inc now
          · rw [if_neg hempty]
            dsimp only
            rw [List.countP_cons, List.countP_cons, ih]
            simp [isCompositeSummary]

theorem countP_isComposite_check_escalation (inc : Incident) (a : Analysis)
    (now : Nat) :
    (check_escalation inc a now).2.countP isCompositeSummary = 0 := by
  unfold check_escalation
  split
  · rfl
  · dsimp only
    split
    · split <;> simp [isCompositeSummary]
    · rfl

theorem countP_isComposite_gather (o : CollabOracles) (iid : String)
    (fbt : String → List Finding) (now : Nat) :
    ∀ teams : List String,
      (gather_positions o iid teams fbt now).2.countP isCompositeSummary = 0 := by
  intro teams
  induction teams with
  | nil => rfl
  | cons t rest ih =>
    rw [gather_positions]
    dsimp only
    by_cases hf : fbt t = []
    · rw [if_pos hf]; exact ih
    · rw [if_neg hf]
      cases hp : o.positionOf t (lastN 5 (fbt t)) with
      | none => exact ih
      | some p0 =>
        dsimp only
        rw [List.countP_cons, ih]
        simp [isCompositeSummary, positionMessage]

theorem countP_isComposite_critiqueRound (o : CollabOracles) (iid : String)
    (allp : List Position) (now : Nat) :
    ∀ (todo : List Position) (i : Nat),
      (critiqueRound o iid allp now i todo).2.countP isCompositeSummary = 0 := by
  intro todo
  induction todo with
  | nil => intro i; rfl
  | cons p rest ih =>
    intro i
    rw [critiqueRound]
    cases hcrit : o.critiqueOf p (allp.eraseIdx i) with
    | none => exact ih (i + 1)
    | some c0 =>
      dsimp only
      rw [List.countP_cons, ih]
      simp [isCompositeSummary]

theorem countP_isComposite_responses (o : CollabOracles) (iid : String)
    (critiques : List Critique) (now : Nat) :
    ∀ positions : List Position,
      (gather_responses o iid positions critiques now).2.countP isCompositeSummary
        = 0 := by
  intro positions
  induction positions with
  | nil => rfl
  | cons p rest ih =>
    rw [gather_responses]
    dsimp only
    by_cases hrel : critiques.filter (fun c => c.from_team ≠ p.team) = []
    · rw [if_pos hrel]; exact ih
    · rw [if_neg hrel]
      cases hrev : o.revisionOf p (critiques.filter (fun c => c.from_team ≠ p.team)) with
      | none => exact ih
      | some r0 =>
        dsimp only
        rw [List.countP_cons, ih]
        simp [isCompositeSummary]

theorem countP_isComposite_exchange (o : CollabOracles) (iid : String)
    (positions : List Position) (now : Nat) :
    (exchange_critiques o iid positions now).2.countP isCompositeSummary = 0 :=
  countP_isComposite_critiqueRound o iid positions now positions 0

theorem countP_isComposite_conduct (inc : Incident) (o : CollabOracles)
    (teams : List String) (fbt : String → List Finding) (now : Nat) :
    (conduct_collaboration inc o teams fbt now).2.1.countP isCompositeSummary
      = 0 := by
  unfold conduct_collaboration announce_start announce_consensus
  dsimp only
  split
  · rw [List.countP_cons, countP_isComposite_gather]
    simp [isCompositeSummary]
  · split <;>
      simp [List.countP_cons, List.countP_append, countP_isComposite_gather,
        countP_isComposite_exchange, countP_isComposite_responses,
        isCompositeSummary]

theorem saCount_assign_actions (inc : Incident) (a : Analysis) (ids : Nat → String)
    (now : Nat) : saCount (assign_actions inc a ids now).1 = saCount inc :=
  saCount_assignLoop a.new_actions inc (activeKeys inc) (activeCount inc) ids 0 now

theorem saCount_coordinate_teams (inc : Incident) (a : Analysis) (now : Nat) :
    saCount (coordinate_teams inc a now).1 = saCount inc :=
  saCount_coordLoop a.team_coordination inc now

theorem countP_isComposite_assign_actions (inc : Incident) (a : Analysis)
    (ids : Nat → String) (now : Nat) :
    (assign_actions inc a ids now).2.countP isCompositeSummary = 0 :=
  countP_isComposite_assignLoop a.new_actions inc (activeKeys inc) (activeCount inc)
    ids 0 now

theorem countP_isComposite_coordinate_teams (inc : Incident) (a : Analysis)
    (now : Nat) :
    (coordinate_teams inc a now).2.countP isCompositeSummary = 0 :=
  countP_isComposite_coordLoop a.team_coordination inc now

theorem analysisTail_sa (inc : Incident) (analysis : Analysis) (ids : Nat → String)
    (now : Nat) (pm : List Message) :
    saCount (analysisTail inc analysis ids now pm).incident = saCount inc + 1 := by
  unfold analysisTail
  dsimp only
  have e1 := saCount_update_hypothesis inc analysis now
  have e2 := saCount_assign_actions (update_hypothesis inc analysis now) analysis
    ids now
  have e3 := saCount_coordinate_teams (assign_actions (update_hypothesis inc analysis
    now) analysis ids now).1 analysis now
  have e4 := saCount_check_escalation (coordinate_teams (assign_actions
    (update_hypothesis inc analysis now) analysis ids now).1 analysis now).1 analysis
    now
  simp only [saCount] at e1 e2 e3 e4 ⊢
  rw [List.countP_append, e4, e3, e2, e1]
  simp [isSAEvent]

theorem analysisTail_messages (inc : Incident) (analysis : Analysis)
    (ids : Nat → String) (now : Nat) (pm : List Message) :
    (analysisTail inc analysis ids now pm).messages.countP isCompositeSummary
      = pm.countP isCompositeSummary + 1 := by
  unfold analysisTail
  dsimp only
  have c2 := countP_isComposite_assign_actions (update_hypothesis inc analysis now)
    analysis ids now
  have c3 := countP_isComposite_coordinate_teams (assign_actions (update_hypothesis
    inc analysis now) analysis ids now).1 analysis now
  have c4 := countP_isComposite_check_escalation (coordinate_teams (assign_actions
    (update_hypothesis inc analysis now) analysis ids now).1 analysis now).1 analysis
    now
  simp [List.countP_append, List.countP_cons, c2, c3, c4, isComposite_broadcast]

theorem analysisPhase_sa (inc : Incident) (findings : List Finding)
    (oa : OracleAnalysis) (ids : Nat → String) (now : Nat) (pm : List Message)
    (h : oa ≠ .falsy) :
    saCount (analysisPhase inc findings oa ids now pm).incident = saCount inc + 1 := by
  cases oa with
  | failure => exact analysisTail_sa inc (get_basic_analysis inc findings) ids now pm
  | falsy => exact absurd rfl h
  | parsed a => exact analysisTail_sa inc a ids now pm

theorem analysisPhase_messages (inc : Incident) (findings : List Finding)
    (oa : OracleAnalysis) (ids : Nat → String) (now : Nat) (pm : List Message)
    (h : oa ≠ .falsy) :
    (analysisPhase inc findings oa ids now pm).messages.countP isCompositeSummary
      = pm.countP isCompositeSummary + 1 := by
  cases oa with
  | failure =>
    exact analysisTail_messages inc (get_basic_analysis inc findings) ids now pm
  | falsy => exact absurd rfl h
  | parsed a => exact analysisTail_messages inc a ids now pm

theorem analysisPhase_falsy (inc : Incident) (findings : List Finding)
    (ids : Nat → String) (now : Nat) (pm : List Message) :
    analysisPhase inc findings .falsy ids now pm
      = { incident := inc, messages := pm, consensusResult := none,
          analysisResult := none } := rfl

theorem consensusApply_timeline (inc : Incident) (c : Consensus) (now : Nat) :
    (consensusApply inc c now).timeline = inc.timeline := rfl

/-- **C7 (amended)**: a cycle whose assessment is truthy (the oracle
fallback or a parsed truthy payload) and that does not end in an
accepted consensus ends with the BROADCASTING step — exactly one
"strategic_analysis" timeline event is appended and exactly one
composite strategic-update message is posted; the collaborating path
with a non-empty consensus hypothesis returns early, appending no
"strategic_analysis" event and posting no composite summary message;
and a parsed-but-falsy assessment (e.g. JSON null or an empty object)
also ends the cycle early — no "strategic_analysis" event, no composite
summary message, and no assessment result. -/
theorem broadcast_step_characterization (inc : Incident) (findings : List Finding)
    (o : CollabOracles) (oa : OracleAnalysis) (ids : Nat → String) (now : Nat) :
    (oa ≠ .falsy →
      saCount (analyze_and_direct inc findings none o oa ids now).incident
        = saCount inc + 1
      ∧ (analyze_and_direct inc findings none o oa ids now).messages.countP
          isCompositeSummary = 1)
    ∧ (∀ teams c, (conduct_collaboration (collabMark inc teams) o teams
          (findingsByTeam findings) now).2.2 = some c →
        c.consensus_hypothesis ≠ "" →
        saCount (analyze_and_direct inc findings (some teams) o oa ids now).incident
          = saCount inc
        ∧ (analyze_and_direct inc findings (some teams) o oa ids now).messages.countP
            isCompositeSummary = 0)
    ∧ (∀ teams, oa ≠ .falsy → (conduct_collaboration (collabMark inc teams) o teams
          (findingsByTeam findings) now).2.2 = none →
        saCount (analyze_and_direct inc findings (some teams) o oa ids now).incident
          = saCount inc + 1
        ∧ (analyze_and_direct inc findings (some teams) o oa ids now).messages.countP
            isCompositeSummary = 1)
    ∧ (∀ teams c, oa ≠ .falsy → (conduct_collaboration (collabMark inc teams) o teams
          (findingsByTeam findings) now).2.2 = some c →
        c.consensus_hypothesis = "" →
        saCount (analyze_and_direct inc findings (some teams) o oa ids now).incident
          = saCount inc + 1
        ∧ (analyze_and_direct inc findings (some teams) o oa ids now).messages.countP
            isCompositeSummary = 1)
    ∧ (oa = .falsy →
        saCount (analyze_and_direct inc findings none o oa ids now).incident
          = saCount inc
        ∧ (analyze_and_direct inc findings none o oa ids now).messages.countP
            isCompositeSummary = 0
        ∧ (analyze_and_direct inc findings none o oa ids now).analysisResult = none)
    ∧ (∀ teams, oa = .falsy →
        ((conduct_collaboration (collabMark inc teams) o teams
            (findingsByTeam findings) now).2.2 = none
          ∨ ∃ c, (conduct_collaboration (collabMark inc teams) o teams
              (findingsByTeam findings) now).2.2 = some c
            ∧ c.consensus_hypothesis = "") →
        saCount (analyze_and_direct inc findings (some teams) o oa ids now).incident
          = saCount inc
        ∧ (analyze_and_direct inc findings (some teams) o oa ids now).messages.countP
            isCompositeSummary = 0
        ∧ (analyze_and_direct inc findings (some teams) o oa ids now).analysisResult
            = none) := by
  have hmark : ∀ teams, saCount (collabMark inc teams) = saCount inc := by
    intro teams; unfold saCount; rw [collabMark_timeline]
  refine ⟨?_, ?_, ?_, ?_, ?_, ?_⟩
  · intro hoa
    exact ⟨analysisPhase_sa inc findings oa ids now [] hoa,
      by simpa using analysisPhase_messages inc findings oa ids now [] hoa⟩
  · intro teams c hcons hne
    have hsa := saCount_conduct (collabMark inc teams) o teams
      (findingsByTeam findings) now
    have hmsg := countP_isComposite_conduct (collabMark inc teams) o teams
      (findingsByTeam findings) now
    rcases hr : conduct_collaboration (collabMark inc teams) o teams
        (findingsByTeam findings) now with ⟨inc2, msgs, cons⟩
    rw [hr] at hcons hsa hmsg
    dsimp only at hcons hsa hmsg
    subst hcons
    unfold analyze_and_direct
    dsimp only
    rw [hr]
    dsimp only
    rw [if_pos hne]
    constructor
    · show saCount (consensusApply inc2 c now) = saCount inc
      have hca : saCount (consensusApply inc2 c now) = saCount inc2 := by
        unfold saCount; rw [consensusApply_timeline]
      rw [hca, hsa, hmark teams]
    · exact hmsg
  · intro teams hoa hcons
    have hsa := saCount_conduct (collabMark inc teams) o teams
      (findingsByTeam findings) now
    have hmsg := countP_isComposite_conduct (collabMark inc teams) o teams
      (findingsByTeam findings) now
    rcases hr : conduct_collaboration (collabMark inc teams) o teams
        (findingsByTeam findings) now with ⟨inc2, msgs, cons⟩
    rw [hr] at hcons hsa hmsg
    dsimp only at hcons hsa hmsg
    subst hcons
    unfold analyze_and_direct
    dsimp only
    rw [hr]
    dsimp only
    constructor
    · rw [analysisPhase_sa inc2 findings oa ids now msgs hoa, hsa, hmark teams]
    · rw [analysisPhase_messages inc2 findings oa ids now msgs hoa, hmsg]
  · intro teams c hoa hcons hne
    have hsa := saCount_conduct (collabMark inc teams) o teams
      (findingsByTeam findings) now
    have hmsg := countP_isComposite_conduct (collabMark inc teams) o teams
      (findingsByTeam findings) now
    rcases hr : conduct_collaboration (collabMark inc teams) o teams
        (findingsByTeam findings) now with ⟨inc2, msgs, cons⟩
    rw [hr] at hcons hsa hmsg
    dsimp only at hcons hsa hmsg
    subst hcons
    unfold analyze_and_direct
    dsimp only
    rw [hr]
    dsimp only
    rw [if_neg (by simp [hne])]
    constructor
    · rw [analysisPhase_sa inc2 findings oa ids now msgs hoa, hsa, hmark teams]
    · rw [analysisPhase_messages inc2 findings oa ids now msgs hoa, hmsg]
  · intro hoa
    subst hoa
    exact ⟨rfl, rfl, rfl⟩
  · intro teams hoa hdis
    subst hoa
    have hsa := saCount_conduct (collabMark inc teams) o teams
      (findingsByTeam findings) now
    have hmsg := countP_isComposite_conduct (collabMark inc teams) o teams
      (findingsByTeam findings) now
    rcases hr : conduct_collaboration (collabMark inc teams) o teams
        (findingsByTeam findings) now with ⟨inc2, msgs, cons⟩
    rw [hr] at hdis hsa hmsg
    dsimp only at hdis hsa hmsg
    rcases hdis with hnone | ⟨c, hsome, hempty⟩
    · subst hnone
      unfold analyze_and_direct
      dsimp only
      rw [hr]
      dsimp only
      refine ⟨?_, hmsg, rfl⟩
      show saCount inc2 = saCount inc
      rw [hsa, hmark teams]
    · subst hsome
      unfold analyze_and_direct
      dsimp only
      rw [hr]
      dsimp only
      rw [if_neg (by simp [hempty])]
      refine ⟨?_, hmsg, rfl⟩
      show saCount inc2 = saCount inc
      rw [hsa, hmark teams]

/-- Counterexample for C7 as frozen: a concrete cycle whose collaboration
reaches a consensus appends no "strategic_analysis" timeline event and
posts no composite strategic-update message — the BROADCASTING step is
skipped on the collaborating path. -/
theorem consensus_path_skips_broadcast_cx :
    (analyze_and_direct wIncident wFindings (some ["A", "B", "C"]) wOracles .failure
        wIds 9).consensusResult.isSome = true
    ∧ saCount (analyze_and_direct wIncident wFindings (some ["A", "B", "C"]) wOracles
        .failure wIds 9).incident = saCount wIncident
    ∧ (analyze_and_direct wIncident wFindings (some ["A", "B", "C"]) wOracles .failure
        wIds 9).messages.countP isCompositeSummary = 0 := by
  refine ⟨rfl, ?_, ?_⟩ <;> rfl

/-- Witness for C7 (amended): on the concrete inputs, the analyzing path
with the oracle fallback broadcasts exactly once, the consensus path
broadcasts nothing, and a parsed-but-falsy assessment ends the cycle
with no assessment result. -/
theorem broadcast_step_characterization_witness :
    (analyze_and_direct wIncident wFindings none wOracles .failure wIds
        9).messages.countP isCompositeSummary = 1
    ∧ saCount (analyze_and_direct wIncident wFindings (some ["A", "B", "C"]) wOracles
        .failure wIds 9).incident = saCount wIncident
    ∧ (analyze_and_direct wIncident wFindings none wOracles .falsy wIds
        9).analysisResult = none :=
  ⟨((broadcast_step_characterization wIncident wFindings wOracles .failure wIds 9).1
      (by decide)).2,
   ((broadcast_step_characterization wIncident wFindings wOracles .failure wIds 9).2.1
      ["A", "B", "C"] { wConsensusLow with participating_teams := ["A", "B", "C"] }
      (by rfl) (by decide)).1,
   ((broadcast_step_characterization wIncident wFindings wOracles .falsy wIds
      9).2.2.2.2.1 rfl).2.2⟩

end WarRoom
